import Mathlib

/-!
Verification of the geometry-to-glTF encoder (`src/lib/index.ts`).

The TypeScript source is shallowly embedded: JavaScript numbers are modelled
as exact rationals `ℚ` (a finite number) together with an explicit non-finite
marker; JavaScript's dynamically typed values (vertex entries, color fields,
side points) are modelled by the inductive `JsVal`; byte buffers are `List ℕ`
with each entry a byte value; thrown exceptions become `Except ConvErr`.
Real-valued computation appears only in `normalize`, which divides by a
Euclidean length (`Math.hypot` in the source) and therefore lives in `ℝ`.
-/

namespace JscadToGltf

/-- Model of a JavaScript value as it is inspected by the encoder.
`num q` is a finite number, `nan` a non-finite number (NaN or ±Infinity),
`null` covers `null`/`undefined`, and `obj` records exactly the three
fields the encoder ever reads from a vertex object (`pos`, `position`,
`color`); any other field access yields `undefined`, i.e. `none`. -/
inductive JsVal where
  | null : JsVal
  | num (q : ℚ) : JsVal
  | nan : JsVal
  | str (s : String) : JsVal
  | arr (elems : List JsVal) : JsVal
  | obj (pos : Option JsVal) (position : Option JsVal) (color : Option JsVal) : JsVal

/-- JavaScript truthiness for the value shapes of `JsVal`: `null`/`undefined`,
`NaN`, `0` and `""` are falsy; arrays and objects are always truthy. -/
def jsTruthy : JsVal → Bool
  | .null => false
  | .num q => q != 0
  | .nan => false
  | .str s => s != ""
  | .arr _ => true
  | .obj _ _ _ => true

/-- Model of `Number(x)` restricted to the value shapes the encoder feeds it:
`none` is a non-finite result.  `Number(null) = 0`; an object coerces to NaN.
(String-to-number and array-to-number coercions are not exercised by the
properties below and are conservatively mapped to NaN.) -/
def jsToNumber : JsVal → Option ℚ
  | .null => some 0
  | .num q => some q
  | .nan => none
  | .str _ => none
  | .arr _ => none
  | .obj _ _ _ => none

/-- Model of the idiom `Number(x) || 0`: a finite nonzero number is kept,
everything else (0, NaN) collapses to `0`. -/
def jsNumOr0 (v : JsVal) : ℚ :=
  match jsToNumber v with
  | some q => q
  | none => 0

/-- Element access `v[i]` on a modelled JavaScript value: out-of-range or
non-array access yields `undefined`, and `Number(undefined) || 0 = 0`. -/
def jsCoordAt (v : JsVal) (i : ℕ) : ℚ :=
  match v with
  | .arr xs =>
    match xs[i]? with
    | some x => jsNumOr0 x
    | none => 0
  | _ => 0

/-- Field access `v.color` (objects carry the field, everything else gives
`undefined`). -/
def jsColorField : JsVal → Option JsVal
  | .obj _ _ c => c
  | _ => none

/-- Field access `v.pos`. -/
def jsPosField : JsVal → Option JsVal
  | .obj p _ _ => p
  | _ => none

/-- Field access `v.position`. -/
def jsPositionField : JsVal → Option JsVal
  | .obj _ p _ => p
  | _ => none

abbrev ColorTuple := ℚ × ℚ × ℚ
abbrev Vec3 := ℚ × ℚ × ℚ

/-- Embedding of `align` (src/lib/index.ts:72): round `value` up to the next
multiple of `multiple`. -/
def align (value : ℕ) (multiple : ℕ) : ℕ :=
  let remainder := value % multiple
  if remainder = 0 then value else value + multiple - remainder

/-- Embedding of `toColorTuple` (src/lib/index.ts:77): a 3+-element array has
each of its first three entries coerced to a number, a non-finite coercion
falling back to the corresponding fallback channel; any other value yields the
fallback triple unchanged. -/
def toColorTuple (value : JsVal) (fallback : ColorTuple) : ColorTuple :=
  match value with
  | .arr elems =>
    if 3 ≤ elems.length then
      let r := jsToNumber (elems.getD 0 .null)
      let g := jsToNumber (elems.getD 1 .null)
      let b := jsToNumber (elems.getD 2 .null)
      (r.getD fallback.1, g.getD fallback.2.1, b.getD fallback.2.2)
    else fallback
  | _ => fallback

/-- Embedding of `normalizeColorChannel` (src/lib/index.ts:87); the argument
is a JavaScript number, `none` standing for a non-finite one. -/
def normalizeColorChannel (value : Option ℚ) : ℚ :=
  match value with
  | none => 0
  | some q => if q < 0 then 0 else if 1 < q then min (q / 255) 1 else q

/-- Embedding of `parseColorArray` (src/lib/index.ts:94).  The source
re-checks `Number.isFinite` on the three normalized channels, but
`normalizeColorChannel` always returns a finite number, so that check can
never fire and is modelled by omission. -/
def parseColorArray (value : JsVal) : Option ColorTuple :=
  match value with
  | .arr elems =>
    if 3 ≤ elems.length then
      let r := normalizeColorChannel (jsToNumber (elems.getD 0 .null))
      let g := normalizeColorChannel (jsToNumber (elems.getD 1 .null))
      let b := normalizeColorChannel (jsToNumber (elems.getD 2 .null))
      some (r, g, b)
    else none
  | _ => none

/-- Characters are hexadecimal digits. -/
def isHexDigit (c : Char) : Bool :=
  c.isDigit || ('a' ≤ c && c ≤ 'f') || ('A' ≤ c && c ≤ 'F')

/-- Numeric value of a hexadecimal digit. -/
def hexDigitVal (c : Char) : ℕ :=
  (c.toNat - (if c.isDigit then 48 else if 'a' ≤ c then 87 else 55)) % 16

/-- Optional leading sign accepted by `parseInt`. -/
def jsSignSplit (cs : List Char) : ℤ × List Char :=
  match cs with
  | '-' :: rest => (-1, rest)
  | '+' :: rest => (1, rest)
  | _ => (1, cs)

/-- Optional `0x`/`0X` prefix accepted by `parseInt` at radix 16. -/
def jsStripHexPrefix (cs : List Char) : List Char :=
  match cs with
  | '0' :: 'x' :: rest => rest
  | '0' :: 'X' :: rest => rest
  | _ => cs

/-- Model of JavaScript `parseInt(s, 16)` on a string given as its character
list: skip leading whitespace, accept an optional sign and an optional
`0x`/`0X` prefix, then read the maximal leading run of hexadecimal digits,
ignoring everything after it; an empty run yields NaN (`none`). -/
def jsParseIntHex (s : List Char) : Option ℤ :=
  let sign := jsSignSplit (s.dropWhile Char.isWhitespace)
  let digits := (jsStripHexPrefix sign.2).takeWhile isHexDigit
  if digits.isEmpty then none
  else some (sign.1 * (digits.foldl (fun acc c => 16 * acc + hexDigitVal c) 0 : ℕ))

/-- Embedding of `parseHexColor` (src/lib/index.ts:103), over the string's
character list: strip the leading `#`, accept digit counts 3, 6 or 8, expand
each nibble of the short form by duplication, and parse each of the first
three channel substrings with `parseInt(·, 16)`; a NaN channel makes the
whole parse fail. -/
def parseHexColor (value : List Char) : Option ColorTuple :=
  let hex := value.drop 1
  let isShort := hex.length = 3
  let isLong := hex.length = 6 ∨ hex.length = 8
  if ¬isShort ∧ ¬isLong then none
  else
    let expand : List Char → List Char := fun component =>
      if isShort then component ++ component else component
    let channel : ℕ → Option ℚ := fun index =>
      let start := index * (if isShort then 1 else 2)
      let part := expand ((hex.drop start).take (if isShort then 1 else 2))
      match jsParseIntHex part with
      | none => none
      | some parsed => some (normalizeColorChannel (some (parsed : ℚ)))
    match channel 0, channel 1, channel 2 with
    | some r, some g, some b => some (r, g, b)
    | _, _, _ => none

/-- Model of JavaScript `String.prototype.trim`: strip whitespace from both
ends. -/
def jsTrim (s : List Char) : List Char :=
  ((s.dropWhile Char.isWhitespace).reverse.dropWhile Char.isWhitespace).reverse

/-- Model of `Number(part)` on the trimmed channel parts `parseRgbColor`
feeds it, for integer literal contents (the shapes exercised here): an
optional sign followed by a nonempty run of decimal digits; anything else is
NaN (`none`). -/
def jsNumberOfChars (s : List Char) : Option ℚ :=
  let signAndRest : ℚ × List Char :=
    match s with
    | '-' :: rest => (-1, rest)
    | '+' :: rest => (1, rest)
    | _ => (1, s)
  if signAndRest.2 ≠ [] ∧ signAndRest.2.all Char.isDigit then
    some (signAndRest.1 * (signAndRest.2.foldl (fun acc c => 10 * acc + (c.toNat - 48)) 0 : ℕ))
  else none

/-- Embedding of the per-part channel parser inside `parseRgbColor`
(src/lib/index.ts:134): a part ending in `%` has its percentage divided by
100 and clamped to `[0, 1]`; a bare number goes through
`normalizeColorChannel`; `none` is an unparseable (NaN) channel. -/
def rgbToChannel (part : List Char) : Option ℚ :=
  if part.getLast? = some '%' then
    match jsNumberOfChars (part.dropLast) with
    | some p => some (min (max (p / 100) 0) 1)
    | none => none
  else
    match jsNumberOfChars part with
    | some n => some (normalizeColorChannel (some n))
    | none => none

/-- Splitting on commas, the `split(",")` of `parseRgbColor`. -/
def splitOnComma : List Char → List (List Char)
  | [] => [[]]
  | c :: rest =>
    if c = ',' then [] :: splitOnComma rest
    else
      match splitOnComma rest with
      | [] => [[c]]
      | g :: gs => (c :: g) :: gs

/-- Embedding of `parseRgbColor` (src/lib/index.ts:122).  The regular
expression `^rgba?\(([^)]+)\)$` (case-insensitive) is modelled directly: the
string must start with `rgb(` or `rgba(` up to case, end with `)`, and its
parenthesized body must be nonempty and free of `)`; the body is split on
commas, parts trimmed, empties dropped, and the first three parts converted
by `rgbToChannel`. -/
def parseRgbColor (value : List Char) : Option ColorTuple :=
  let lower := value.map Char.toLower
  let body? : Option (List Char) :=
    if lower.take 5 = "rgba(".data ∧ value.getLast? = some ')' ∧
        ¬((value.drop 5).dropLast.contains ')' = true) ∧ (value.drop 5).dropLast ≠ [] then
      some ((value.drop 5).dropLast)
    else if lower.take 4 = "rgb(".data ∧ value.getLast? = some ')' ∧
        ¬((value.drop 4).dropLast.contains ')' = true) ∧ (value.drop 4).dropLast ≠ [] then
      some ((value.drop 4).dropLast)
    else none
  match body? with
  | none => none
  | some partsSource =>
    let parts := ((splitOnComma partsSource).map jsTrim).filter (fun p => p ≠ [])
    if parts.length < 3 then none
    else
      match rgbToChannel (parts.getD 0 []), rgbToChannel (parts.getD 1 []),
          rgbToChannel (parts.getD 2 []) with
      | some r, some g, some b => some (r, g, b)
      | _, _, _ => none

/-- Embedding of `parseColorValue` (src/lib/index.ts:150), the entry point of
the Color Resolver: `null`/`undefined` is absent; arrays go through
`parseColorArray` (a `some` result is an array, hence truthy, so the source's
truthiness test on it always passes); strings are trimmed, an empty trim is
absent, a `#`-prefixed trim is lowercased and hex-parsed, anything else is
rgb-parsed; other values are absent. -/
def parseColorValue (value : Option JsVal) : Option ColorTuple :=
  match value with
  | none => none
  | some .null => none
  | some v =>
    match parseColorArray v with
    | some c => some c
    | none =>
      match v with
      | .str s =>
        let trimmed := jsTrim s.data
        if trimmed = [] then none
        else if trimmed.take 1 = ['#'] then parseHexColor (trimmed.map Char.toLower)
        else parseRgbColor trimmed
      | _ => none

/-- Reading of a 3+-element array as a coordinate triple via `Number(·) || 0`,
the shared shape test of the three branches of `extractVertexPosition`;
`none` when the value is not an array of length at least 3. -/
def vecFromArr (v : JsVal) : Option Vec3 :=
  match v with
  | .arr xs =>
    if 3 ≤ xs.length then some (jsCoordAt v 0, jsCoordAt v 1, jsCoordAt v 2) else none
  | _ => none

/-- Embedding of `extractVertexPosition` (src/lib/index.ts:163): a falsy
vertex is the origin; a 3+-element array is read directly; otherwise a truthy
`pos` field holding a 3+-element array, then a `position` field holding a
3+-element array, are tried in that order; each coordinate is
`Number(·) || 0`; everything else is the origin. -/
def extractVertexPosition (vertex : JsVal) : Vec3 :=
  if ¬jsTruthy vertex then (0, 0, 0)
  else
    match vecFromArr vertex with
    | some p => p
    | none =>
      match (jsPosField vertex).bind fun p => if jsTruthy p then vecFromArr p else none with
      | some p => p
      | none =>
        match (jsPositionField vertex).bind vecFromArr with
        | some p => p
        | none => (0, 0, 0)

/-- Embedding of `extractVertexColor` (src/lib/index.ts:177): a truthy
`color` field goes through `toColorTuple` with the shape default as fallback;
otherwise the default is used. -/
def extractVertexColor (vertex : JsVal) (defaultColor : ColorTuple) : ColorTuple :=
  match jsColorField vertex with
  | some c => if jsTruthy c then toColorTuple c defaultColor else defaultColor
  | none => defaultColor

/-- Embedding of `applyTransform` (src/lib/index.ts:182): a missing matrix or
one that is not exactly 16 numbers leaves the vector unchanged; otherwise the
column-major 4×4 matrix is applied to `[x, y, z, 1]` and, when the resulting
homogeneous coordinate `w` is truthy (nonzero) and not `1`, the spatial
coordinates are divided by `w`. -/
def applyTransform (vector : Vec3) (matrix : Option (List ℚ)) : Vec3 :=
  match matrix with
  | none => vector
  | some m =>
    if m.length ≠ 16 then vector
    else
      let x := vector.1
      let y := vector.2.1
      let z := vector.2.2
      let nx := m.getD 0 0 * x + m.getD 4 0 * y + m.getD 8 0 * z + m.getD 12 0
      let ny := m.getD 1 0 * x + m.getD 5 0 * y + m.getD 9 0 * z + m.getD 13 0
      let nz := m.getD 2 0 * x + m.getD 6 0 * y + m.getD 10 0 * z + m.getD 14 0
      let w := m.getD 3 0 * x + m.getD 7 0 * y + m.getD 11 0 * z + m.getD 15 0
      if w ≠ 0 ∧ w ≠ 1 then (nx / w, ny / w, nz / w) else (nx, ny, nz)

/-- Embedding of `subtract` (src/lib/index.ts:196). -/
def subtract (a b : Vec3) : Vec3 := (a.1 - b.1, a.2.1 - b.2.1, a.2.2 - b.2.2)

/-- Embedding of `cross` (src/lib/index.ts:197). -/
def cross (a b : Vec3) : Vec3 :=
  (a.2.1 * b.2.2 - a.2.2 * b.2.1,
   a.2.2 * b.1 - a.1 * b.2.2,
   a.1 * b.2.1 - a.2.1 * b.1)

abbrev Vec3R := ℝ × ℝ × ℝ

open Classical in
/-- Embedding of `normalize` (src/lib/index.ts:202): `Math.hypot` is the
Euclidean length; a zero length (which in exact arithmetic happens exactly on
the zero vector) yields the fallback `[0, 0, 1]`, otherwise each component is
divided by the length. -/
noncomputable def normalize (v : Vec3) : Vec3R :=
  let length : ℝ := Real.sqrt ((v.1 : ℝ) ^ 2 + (v.2.1 : ℝ) ^ 2 + (v.2.2 : ℝ) ^ 2)
  if length = 0 then (0, 0, 1)
  else ((v.1 : ℝ) / length, (v.2.1 : ℝ) / length, (v.2.2 : ℝ) / length)

/-- Flattening of a rational triple into stream order `[x, y, z]`. -/
def vecToList (v : Vec3) : List ℚ := [v.1, v.2.1, v.2.2]

/-- Flattening of a real triple into stream order `[x, y, z]`. -/
def vecToListR (v : Vec3R) : List ℝ := [v.1, v.2.1, v.2.2]

/-- Embedding of the `CsgLike` interface (src/lib/index.ts:24).  A polygon
entry `none` models a `null` polygon or one whose `vertices` field is missing
or falsy; `some vs` models `{ vertices: vs }`. -/
structure CsgLike where
  polygons : Option (List (Option (List JsVal))) := none
  sides : Option (List JsVal) := none
  color : Option JsVal := none
  transforms : Option (List ℚ) := none

/-- The distinct failure conditions thrown by the encoder, one constructor
per `throw new Error(...)` site. -/
inductive ConvErr where
  | expectedPolygonData : ConvErr
  | emptyTriangleMesh : ConvErr
  | expectedSideData : ConvErr
  | emptyLineGeometry : ConvErr
  | unsupportedGeometry : ConvErr
  | noGeometry : ConvErr
deriving DecidableEq

/-- The exact message string each failure carries in the source. -/
def ConvErr.message : ConvErr → String
  | .expectedPolygonData => "Expected polygon data in JSCAD geometry"
  | .emptyTriangleMesh => "Unable to build triangle mesh from JSCAD polygons"
  | .expectedSideData => "Expected side data in JSCAD 2D geometry"
  | .emptyLineGeometry => "Unable to build line geometry from JSCAD sides"
  | .unsupportedGeometry =>
    "JSCAD plan evaluation did not return a supported geometry (expected geom2 or geom3)"
  | .noGeometry => "JSCAD plan execution returned no geometry"

/-- Decidable equality of encoder results, so concrete runs can be checked
by evaluation. -/
instance {ε α : Type} [DecidableEq ε] [DecidableEq α] : DecidableEq (Except ε α) := fun a b =>
  match a, b with
  | .ok x, .ok y => if h : x = y then .isTrue (by rw [h]) else .isFalse (by simp [h])
  | .error x, .error y => if h : x = y then .isTrue (by rw [h]) else .isFalse (by simp [h])
  | .ok _, .error _ => .isFalse (by simp)
  | .error _, .ok _ => .isFalse (by simp)

def GLTF_MODE_TRIANGLES : ℕ := 4
def GLTF_MODE_LINES : ℕ := 1
def GLTF_COMPONENT_FLOAT : ℕ := 5126

/-- Embedding of the `GeometryData` interface (src/lib/index.ts:31), one
triangulated Mesh Unit.  Streams are modelled exactly (the source stores
`Float32Array`s; rounding to 32-bit floats is idealized away, and the
real-valued normal stream is kept in `ℝ`). -/
structure GeometryData where
  name : String
  positions : List ℚ
  normals : Option (List ℝ) := none
  colors : Option (List ℚ) := none
  mode : ℕ

/-- The inline default-color computation of both converters
(src/lib/index.ts:216 and :267): a truthy `color` field goes through
`toColorTuple` with white as fallback, everything else is white. -/
def csgDefaultColor (csg : CsgLike) : ColorTuple :=
  match csg.color with
  | some v => if jsTruthy v then toColorTuple v (1, 1, 1) else (1, 1, 1)
  | none => (1, 1, 1)

/-- The transformed vertex list of one polygon (src/lib/index.ts:221). -/
def transformedVertices (csg : CsgLike) (vs : List JsVal) : List Vec3 :=
  vs.map fun v => applyTransform (extractVertexPosition v) csg.transforms

/-- The index range of the fan loop `for (let i = 1; i < n - 1; i++)`
(src/lib/index.ts:228): the indices `1, …, n - 2`. -/
def fanIndices (n : ℕ) : List ℕ := List.range' 1 (n - 2)

/-- Position-stream contribution of one polygon of `convertPolygonGeometry`
(src/lib/index.ts:218): a missing or sub-3-vertex polygon is skipped; the
fan triangle at index `i` appends the transformed vertices `0`, `i`, `i + 1`,
nine floats in that order.  (The source fills the position, normal and color
accumulators in a single loop; the three accumulators are independent, so the
loop is split into one definition per stream.) -/
def polyPositions (csg : CsgLike) (p : Option (List JsVal)) : List ℚ :=
  match p with
  | none => []
  | some vs =>
    if vs.length < 3 then []
    else
      let tvs := transformedVertices csg vs
      (fanIndices tvs.length).flatMap fun i =>
        vecToList (tvs.getD 0 (0, 0, 0)) ++ vecToList (tvs.getD i (0, 0, 0)) ++
          vecToList (tvs.getD (i + 1) (0, 0, 0))

/-- Normal-stream contribution of one polygon (src/lib/index.ts:233): the
triangle's flat normal `normalize(cross(b - a, c - a))` is appended three
times, once per triangle vertex. -/
noncomputable def polyNormals (csg : CsgLike) (p : Option (List JsVal)) : List ℝ :=
  match p with
  | none => []
  | some vs =>
    if vs.length < 3 then []
    else
      let tvs := transformedVertices csg vs
      (fanIndices tvs.length).flatMap fun i =>
        let a := tvs.getD 0 (0, 0, 0)
        let b := tvs.getD i (0, 0, 0)
        let c := tvs.getD (i + 1) (0, 0, 0)
        let normal := normalize (cross (subtract b a) (subtract c a))
        vecToListR normal ++ vecToListR normal ++ vecToListR normal

/-- Color-stream contribution of one polygon (src/lib/index.ts:226): each
vertex's own color field through `extractVertexColor` with the shape default
as fallback, fan order `0`, `i`, `i + 1`. -/
def polyColors (csg : CsgLike) (p : Option (List JsVal)) : List ℚ :=
  match p with
  | none => []
  | some vs =>
    if vs.length < 3 then []
    else
      let vertexColors := vs.map fun v => extractVertexColor v (csgDefaultColor csg)
      (fanIndices vs.length).flatMap fun i =>
        vecToList (vertexColors.getD 0 (0, 0, 0)) ++ vecToList (vertexColors.getD i (0, 0, 0)) ++
          vecToList (vertexColors.getD (i + 1) (0, 0, 0))

/-- Embedding of `convertPolygonGeometry` (src/lib/index.ts:208). -/
noncomputable def convertPolygonGeometry (csg : CsgLike) (name : String) :
    Except ConvErr GeometryData :=
  match csg.polygons with
  | none => .error .expectedPolygonData
  | some ps =>
    if ps.length = 0 then .error .expectedPolygonData
    else
      let positions := ps.flatMap (polyPositions csg)
      let normals := ps.flatMap (polyNormals csg)
      let colors := ps.flatMap (polyColors csg)
      if positions.length = 0 then .error .emptyTriangleMesh
      else
        .ok { name := name, positions := positions, normals := some normals,
              colors := if colors.length = 0 then none else some colors,
              mode := GLTF_MODE_TRIANGLES }

/-- Position-stream contribution of one side of `convertSideGeometry`
(src/lib/index.ts:269): a non-array or sub-2-point side is skipped; otherwise
the transformed first and last points are appended, six floats. -/
def sidePositions (csg : CsgLike) (side : JsVal) : List ℚ :=
  match side with
  | .arr pts =>
    if pts.length < 2 then []
    else
      let startRaw := pts.getD 0 .null
      let endRaw := pts.getD (pts.length - 1) .null
      let start := applyTransform (jsCoordAt startRaw 0, jsCoordAt startRaw 1, jsCoordAt startRaw 2)
        csg.transforms
      let stop := applyTransform (jsCoordAt endRaw 0, jsCoordAt endRaw 1, jsCoordAt endRaw 2)
        csg.transforms
      vecToList start ++ vecToList stop
  | _ => []

/-- Color-stream contribution of one side (src/lib/index.ts:284): the shape
default, twice. -/
def sideColors (csg : CsgLike) (side : JsVal) : List ℚ :=
  match side with
  | .arr pts =>
    if pts.length < 2 then []
    else vecToList (csgDefaultColor csg) ++ vecToList (csgDefaultColor csg)
  | _ => []

/-- Embedding of `convertSideGeometry` (src/lib/index.ts:260); line-mode
units carry no normal stream. -/
def convertSideGeometry (csg : CsgLike) (name : String) : Except ConvErr GeometryData :=
  match csg.sides with
  | none => .error .expectedSideData
  | some ss =>
    if ss.length = 0 then .error .expectedSideData
    else
      let positions := ss.flatMap (sidePositions csg)
      let colors := ss.flatMap (sideColors csg)
      if positions.length = 0 then .error .emptyLineGeometry
      else
        .ok { name := name, positions := positions, normals := none,
              colors := if colors.length = 0 then none else some colors,
              mode := GLTF_MODE_LINES }

mutual
/-- The argument shape `CsgLike | CsgLike[]` of `collectGeometries`
(src/lib/index.ts:299), as a tree: a leaf is a single geometry value (`none`
modelling a `null`/non-geometry element), a group is a JavaScript array
(spelled as a mutual inductive so the recursion over it is structural). -/
inductive CsgNode where
  | leaf (c : Option CsgLike) : CsgNode
  | group (cs : CsgNodeList) : CsgNode

/-- A JavaScript array of geometry values. -/
inductive CsgNodeList where
  | nil : CsgNodeList
  | cons (c : CsgNode) (cs : CsgNodeList) : CsgNodeList
end

mutual
/-- Embedding of `collectGeometries` (src/lib/index.ts:299): arrays recurse
element-wise with indexed name suffixes; a value with a present `polygons`
field (even an empty list, which is truthy in JavaScript) takes the polygon
path; otherwise a present `sides` field takes the side path; otherwise the
unsupported-geometry failure is raised. -/
noncomputable def collectGeometries : CsgNode → String → Except ConvErr (List GeometryData)
  | .group cs, name => collectGeometriesList cs name 0
  | .leaf none, _ => .error .unsupportedGeometry
  | .leaf (some c), name =>
    match c.polygons with
    | some _ => (convertPolygonGeometry c name).map fun g => [g]
    | none =>
      match c.sides with
      | some _ => (convertSideGeometry c name).map fun g => [g]
      | none => .error .unsupportedGeometry

/-- The `flatMap` of `collectGeometries` over an array, with the running
element index: child `i` is collected under the name `name_i`, results are
concatenated, and the first failure propagates (a thrown error in the
`flatMap` callback aborts the iteration). -/
noncomputable def collectGeometriesList :
    CsgNodeList → String → ℕ → Except ConvErr (List GeometryData)
  | .nil, _, _ => .ok []
  | .cons c cs, name, index =>
    match collectGeometries c (name ++ "_" ++ toString index) with
    | .error e => .error e
    | .ok gs =>
      match collectGeometriesList cs name (index + 1) with
      | .error e => .error e
      | .ok rest => .ok (gs ++ rest)
end

/-- Extended JavaScript number for the `computeMinMax` sentinels: the loop
seeds `min` with `Infinity` and `max` with `-Infinity` and compares finite
stream values against them. -/
inductive XQ where
  | negInf : XQ
  | fin (q : ℚ) : XQ
  | posInf : XQ
deriving DecidableEq

/-- One `if (x < min) min = x` step: the candidate is `none` when the indexed
read fell off the end of the array (`undefined`, so the comparison with NaN
is false and nothing updates). -/
def xqMinStep (x : Option ℚ) (m : XQ) : XQ :=
  match x, m with
  | none, _ => m
  | some _, .negInf => m
  | some q, .posInf => .fin q
  | some q, .fin r => if q < r then .fin q else m

/-- One `if (x > max) max = x` step. -/
def xqMaxStep (x : Option ℚ) (m : XQ) : XQ :=
  match x, m with
  | none, _ => m
  | some _, .posInf => m
  | some q, .negInf => .fin q
  | some q, .fin r => if r < q then .fin q else m

/-- The stride-3 loop of `computeMinMax` (src/lib/index.ts:339): each
iteration reads `values[i]`, `values[i+1]`, `values[i+2]` (a read past the
end is `undefined`, whose NaN comparisons update nothing) and advances
by 3; the one- and two-element tails are spelled out so the recursion is
structural. -/
def computeMinMaxLoop :
    List ℚ → XQ × XQ × XQ → XQ × XQ × XQ → (XQ × XQ × XQ) × (XQ × XQ × XQ)
  | [], mins, maxs => (mins, maxs)
  | [x], mins, maxs =>
    ((xqMinStep (some x) mins.1, mins.2.1, mins.2.2),
     (xqMaxStep (some x) maxs.1, maxs.2.1, maxs.2.2))
  | [x, y], mins, maxs =>
    ((xqMinStep (some x) mins.1, xqMinStep (some y) mins.2.1, mins.2.2),
     (xqMaxStep (some x) maxs.1, xqMaxStep (some y) maxs.2.1, maxs.2.2))
  | x :: y :: z :: rest, mins, maxs =>
    computeMinMaxLoop rest
      (xqMinStep (some x) mins.1, xqMinStep (some y) mins.2.1, xqMinStep (some z) mins.2.2)
      (xqMaxStep (some x) maxs.1, xqMaxStep (some y) maxs.2.1, xqMaxStep (some z) maxs.2.2)

/-- Embedding of `computeMinMax` (src/lib/index.ts:335): per-axis minima and
maxima over the position triples, seeded from the infinity sentinels. -/
def computeMinMax (values : List ℚ) :
    (XQ × XQ × XQ) × (XQ × XQ × XQ) :=
  computeMinMaxLoop values (.posInf, .posInf, .posInf) (.negInf, .negInf, .negInf)

/-- Flattening of the per-axis triple into the `number[]` the accessor
stores. -/
def xqToList (m : XQ × XQ × XQ) : List XQ := [m.1, m.2.1, m.2.2]

/-- Embedding of the `BufferView` interface (src/lib/index.ts:48). -/
structure BufferView where
  buffer : ℕ
  byteOffset : ℕ
  byteLength : ℕ
  target : Option ℕ := none
deriving DecidableEq

/-- Embedding of the `Accessor` interface (src/lib/index.ts:55); `min`/`max`
are attached only to position accessors, `normalized` is never set. -/
structure Accessor where
  bufferView : ℕ
  componentType : ℕ
  count : ℕ
  type : String
  min : Option (List XQ) := none
  max : Option (List XQ) := none
deriving DecidableEq

/-- One glTF primitive: the attribute record in insertion order
(`POSITION`, then `NORMAL` and `COLOR_0` when present) and the draw mode. -/
structure GltfPrimitive where
  attributes : List (String × ℕ)
  mode : ℕ
deriving DecidableEq

/-- One glTF mesh (src/lib/index.ts:365). -/
structure GltfMesh where
  name : String
  primitives : List GltfPrimitive
deriving DecidableEq

/-- One glTF node (src/lib/index.ts:366). -/
structure GltfNode where
  name : String
  mesh : ℕ
deriving DecidableEq

/-- The single scene entry (src/lib/index.ts:461). -/
structure GltfScene where
  name : String
  nodes : List ℕ
deriving DecidableEq

/-- The `asset` record (src/lib/index.ts:455). -/
structure GltfAsset where
  version : String
  generator : String
deriving DecidableEq

/-- The single buffer descriptor (src/lib/index.ts:456): byte length only. -/
structure GltfBuffer where
  byteLength : ℕ
deriving DecidableEq

/-- The scene JSON assembled by `buildGltfCore` (src/lib/index.ts:454). -/
structure GltfJson where
  asset : GltfAsset
  buffers : List GltfBuffer
  bufferViews : List BufferView
  accessors : List Accessor
  meshes : List GltfMesh
  nodes : List GltfNode
  scenes : List GltfScene
  scene : ℕ
deriving DecidableEq

/-- Result record of `addBufferView`: the source mutates the chunk and view
arrays in place and returns the new view's index and the new running length;
the functional embedding returns all four. -/
structure AddBufferViewResult where
  chunks : List (List ℕ)
  bufferViews : List BufferView
  bufferViewIndex : ℕ
  newLength : ℕ

/-- Embedding of `addBufferView` (src/lib/index.ts:317): pad the running
length up to a multiple of 4 with zero bytes, append the data bytes, and
record a bufferView at the post-padding offset.  `dataBytes` are the bytes
of the typed array (`data.byteLength` bytes, exactly the bytes `Buffer.from`
wraps). -/
def addBufferView (chunks : List (List ℕ)) (bufferViews : List BufferView)
    (dataBytes : List ℕ) (currentLength : ℕ) (target : Option ℕ) : AddBufferViewResult :=
  let offset := align currentLength 4
  let padding := offset - currentLength
  let chunks := if 0 < padding then chunks ++ [List.replicate padding 0] else chunks
  let chunks := chunks ++ [dataBytes]
  let bufferViews := bufferViews ++
    [{ buffer := 0, byteOffset := offset, byteLength := dataBytes.length, target := target }]
  { chunks := chunks, bufferViews := bufferViews,
    bufferViewIndex := bufferViews.length - 1, newLength := offset + dataBytes.length }

/-- Accumulator state of the `geometries.forEach` loop in `buildGltfCore`
(src/lib/index.ts:361). -/
structure PackState where
  bufferChunks : List (List ℕ)
  bufferViews : List BufferView
  accessors : List Accessor
  meshes : List GltfMesh
  nodes : List GltfNode
  bufferLength : ℕ

/-- The loop body of `buildGltfCore` for one geometry (src/lib/index.ts:369).
`f32` and `n32` encode one 32-bit float as its little-endian bytes (the
IEEE-754 encoding performed by `Float32Array`, kept abstract: every theorem
below holds for an arbitrary 4-bytes-per-element encoder). -/
def packGeometry (f32 : ℚ → List ℕ) (n32 : ℝ → List ℕ) (st : PackState)
    (g : GeometryData) (index : ℕ) : PackState :=
  let positionResult := addBufferView st.bufferChunks st.bufferViews
    (g.positions.flatMap f32) st.bufferLength (some 34962)
  let mm := computeMinMax g.positions
  let positionAccessorIndex := st.accessors.length
  let accessors := st.accessors ++
    [{ bufferView := positionResult.bufferViewIndex, componentType := GLTF_COMPONENT_FLOAT,
       count := g.positions.length / 3, type := "VEC3",
       min := some (xqToList mm.1), max := some (xqToList mm.2) }]
  let attributes := [("POSITION", positionAccessorIndex)]
  let afterNormals :
      List (List ℕ) × List BufferView × List Accessor × List (String × ℕ) × ℕ :=
    match g.normals with
    | none => (positionResult.chunks, positionResult.bufferViews, accessors, attributes,
        positionResult.newLength)
    | some ns =>
      let normalResult := addBufferView positionResult.chunks positionResult.bufferViews
        (ns.flatMap n32) positionResult.newLength (some 34962)
      let normalAccessor : Accessor :=
        { bufferView := normalResult.bufferViewIndex, componentType := GLTF_COMPONENT_FLOAT,
          count := ns.length / 3, type := "VEC3" }
      (normalResult.chunks, normalResult.bufferViews, accessors ++ [normalAccessor],
       attributes ++ [("NORMAL", accessors.length)], normalResult.newLength)
  let afterColors :
      List (List ℕ) × List BufferView × List Accessor × List (String × ℕ) × ℕ :=
    match g.colors with
    | none => afterNormals
    | some cs =>
      let colorResult := addBufferView afterNormals.1 afterNormals.2.1
        (cs.flatMap f32) afterNormals.2.2.2.2 (some 34962)
      let colorAccessor : Accessor :=
        { bufferView := colorResult.bufferViewIndex, componentType := GLTF_COMPONENT_FLOAT,
          count := cs.length / 3, type := "VEC3" }
      (colorResult.chunks, colorResult.bufferViews, afterNormals.2.2.1 ++ [colorAccessor],
       afterNormals.2.2.2.1 ++ [("COLOR_0", afterNormals.2.2.1.length)],
       colorResult.newLength)
  { bufferChunks := afterColors.1,
    bufferViews := afterColors.2.1,
    accessors := afterColors.2.2.1,
    meshes := st.meshes ++
      [{ name := g.name, primitives := [{ attributes := afterColors.2.2.2.1, mode := g.mode }] }],
    nodes := st.nodes ++ [{ name := g.name, mesh := index }],
    bufferLength := afterColors.2.2.2.2 }

/-- The indexed `forEach` over the geometry list. -/
def packAll (f32 : ℚ → List ℕ) (n32 : ℝ → List ℕ) :
    List GeometryData → ℕ → PackState → PackState
  | [], _, st => st
  | g :: gs, index, st => packAll f32 n32 gs (index + 1) (packGeometry f32 n32 st g index)

/-- Model of `Buffer.concat(chunks, totalLength)`: the concatenation,
truncated to `totalLength` and zero-filled up to it. -/
def bufferConcat (chunks : List (List ℕ)) (totalLength : ℕ) : List ℕ :=
  (chunks.flatten.take totalLength) ++ List.replicate (totalLength - chunks.flatten.length) 0

/-- Embedding of `buildGltfCore` (src/lib/index.ts:361): pack every geometry,
pad the total length to a multiple of 4, concatenate the chunks into the
packed buffer and assemble the scene JSON. -/
def buildGltfCore (f32 : ℚ → List ℕ) (n32 : ℝ → List ℕ) (geometries : List GeometryData) :
    GltfJson × List ℕ :=
  let st := packAll f32 n32 geometries 0
    { bufferChunks := [], bufferViews := [], accessors := [], meshes := [], nodes := [],
      bufferLength := 0 }
  let alignedLength := align st.bufferLength 4
  let chunks :=
    if st.bufferLength < alignedLength then
      st.bufferChunks ++ [List.replicate (alignedLength - st.bufferLength) 0]
    else st.bufferChunks
  let bufferLength := alignedLength
  let binary := bufferConcat chunks bufferLength
  let json : GltfJson :=
    { asset := { version := "2.0", generator := "jscad-plan-to-gltf" },
      buffers := [{ byteLength := bufferLength }],
      bufferViews := st.bufferViews,
      accessors := st.accessors,
      meshes := st.meshes,
      nodes := st.nodes.mapIdx fun idx node => { node with mesh := idx },
      scenes := [{ name := "Scene", nodes := List.range st.nodes.length }],
      scene := 0 }
  (json, binary)

/-- Little-endian bytes written by `buffer.writeUInt32LE(n, off)`.  Node
throws for `n ≥ 2³²`; the embedding wraps, and the theorems that read the
field back carry the in-range hypothesis. -/
def u32le (n : ℕ) : List ℕ := [n % 256, n / 256 % 256, n / 65536 % 256, n / 16777216 % 256]

/-- Embedding of `buildGlb` (src/lib/index.ts:468).  `jsonBytes` models
`Buffer.from(JSON.stringify(json), "utf8")`: `JSON.stringify` is an external
builtin, kept abstract as an arbitrary byte string; the one fact about it the
round-trip uses — its output ends in `}`, never in a space — enters as a
hypothesis where needed.  The JSON chunk is padded with spaces (0x20), the
binary chunk with zeros, and the 12-byte header carries the magic, the
version 2 and the total container length. -/
def buildGlb (jsonBytes : List ℕ) (binary : List ℕ) : List ℕ :=
  let jsonPadding := align jsonBytes.length 4 - jsonBytes.length
  let paddedJson := if 0 < jsonPadding then jsonBytes ++ List.replicate jsonPadding 32
    else jsonBytes
  let binPadding := align binary.length 4 - binary.length
  let paddedBinary := if 0 < binPadding then binary ++ List.replicate binPadding 0 else binary
  let totalLength := 12 + 8 + paddedJson.length + 8 + paddedBinary.length
  let header := u32le 0x46546c67 ++ u32le 2 ++ u32le totalLength
  let jsonChunkHeader := u32le paddedJson.length ++ u32le 0x4e4f534a
  let binChunkHeader := u32le paddedBinary.length ++ u32le 0x004e4942
  header ++ jsonChunkHeader ++ paddedJson ++ binChunkHeader ++ paddedBinary

/-- Modelled from the spec: reading a 32-bit little-endian field out of the
container (the repository contains only the builder; §4.4 and §6 fix
little-endian 32-bit fields). -/
def readU32LE (bs : List ℕ) (off : ℕ) : ℕ :=
  bs.getD off 0 + 256 * bs.getD (off + 1) 0 + 65536 * bs.getD (off + 2) 0 +
    16777216 * bs.getD (off + 3) 0

/-- Modelled from the spec: the parsing direction of the round-trip — the
JSON chunk of a container is the run of bytes after the 12-byte header and
the 8-byte JSON chunk header whose length the chunk header declares. -/
def glbJsonChunk (bs : List ℕ) : List ℕ := (bs.drop 20).take (readU32LE bs 12)

/-- Modelled from the spec: the BIN chunk of a container — the run of bytes
after the JSON chunk and the 8-byte BIN chunk header, with the declared
length. -/
def glbBinChunk (bs : List ℕ) : List ℕ :=
  let jsonLen := readU32LE bs 12
  (bs.drop (20 + jsonLen + 8)).take (readU32LE bs (20 + jsonLen))

/-- Stripping the trailing padding spaces from the JSON chunk. -/
def stripTrailingSpaces (bs : List ℕ) : List ℕ :=
  (bs.reverse.dropWhile (fun b => b = 32)).reverse

/-- Written from the spec's words (§4.2), for comparison with the code's
`applyTransform`: interpret a 16-entry list as a column-major 4×4 matrix
(entry of row `r`, column `c` at index `c·4 + r`), compute
`[x', y', z', w] = M·[x, y, z, 1]`, and divide the spatial coordinates by the
homogeneous coordinate exactly when `w ≠ 0` and `w ≠ 1`. -/
def specColumnMajorApply (m : List ℚ) (v : Vec3) : Vec3 :=
  let entry : ℕ → ℕ → ℚ := fun row col => m.getD (col * 4 + row) 0
  let hx := entry 0 0 * v.1 + entry 0 1 * v.2.1 + entry 0 2 * v.2.2 + entry 0 3
  let hy := entry 1 0 * v.1 + entry 1 1 * v.2.1 + entry 1 2 * v.2.2 + entry 1 3
  let hz := entry 2 0 * v.1 + entry 2 1 * v.2.1 + entry 2 2 * v.2.2 + entry 2 3
  let w := entry 3 0 * v.1 + entry 3 1 * v.2.1 + entry 3 2 * v.2.2 + entry 3 3
  if w ≠ 0 ∧ w ≠ 1 then (hx / w, hy / w, hz / w) else (hx, hy, hz)

/-! ## Claim theorems -/

/-- C8: for every 3D point and transform list, a 16-entry list acts as the
column-major matrix product `M·[x,y,z,1]` with perspective division exactly
when the homogeneous coordinate is neither 0 nor 1, and an absent or
wrongly-sized list leaves the point unchanged. -/
theorem c8_transform_application :
    ∀ (v : Vec3) (m : Option (List ℚ)),
      applyTransform v m =
        match m with
        | some l => if l.length = 16 then specColumnMajorApply l v else v
        | none => v := by
  intro v m
  match m with
  | none => rfl
  | some l =>
    by_cases h : l.length = 16 <;>
      simp [applyTransform, specColumnMajorApply, h]

/-- C6: a 3+-element numeric sequence resolves to the triple of its
per-channel normalizations; a finite channel above 1 is divided by 255 and
clamped into `[0, 1]`, a negative or non-finite channel becomes 0, a channel
already in `[0, 1]` is kept, and `resolve([255, 0, 0])` is `[1, 0, 0]`. -/
theorem c6_color_array_normalization :
    (∀ (a b c : JsVal) (rest : List JsVal),
      parseColorValue (some (.arr (a :: b :: c :: rest))) =
        some (normalizeColorChannel (jsToNumber a), normalizeColorChannel (jsToNumber b),
          normalizeColorChannel (jsToNumber c)))
    ∧ (∀ q : ℚ, 1 < q → normalizeColorChannel (some q) = min (q / 255) 1 ∧
        0 ≤ normalizeColorChannel (some q) ∧ normalizeColorChannel (some q) ≤ 1)
    ∧ (∀ q : ℚ, q < 0 → normalizeColorChannel (some q) = 0)
    ∧ normalizeColorChannel none = 0
    ∧ (∀ q : ℚ, 0 ≤ q → q ≤ 1 → normalizeColorChannel (some q) = q)
    ∧ parseColorValue (some (.arr [.num 255, .num 0, .num 0])) = some (1, 0, 0) := by
  refine ⟨?_, ?_, ?_, rfl, ?_, ?_⟩
  · intro a b c rest
    cases a <;> simp [parseColorValue, parseColorArray]
  · intro q hq
    have h0 : ¬q < 0 := by linarith
    refine ⟨by simp [normalizeColorChannel, h0, hq], ?_, ?_⟩
    · simp only [normalizeColorChannel, h0, hq, if_false, if_true, le_min_iff]
      constructor <;> [positivity; norm_num]
    · simp [normalizeColorChannel, h0, hq]
  · intro q hq
    simp [normalizeColorChannel, hq]
  · intro q h0 h1
    have : ¬q < 0 := by linarith
    have : ¬1 < q := by linarith
    simp [normalizeColorChannel, *]
  · with_unfolding_all rfl

/-- Witness for C6 at concrete channels: 255 is normalized to 1, −3 to 0, a
non-finite channel to 0, and ½ is kept. -/
theorem c6_color_array_normalization_witness :
    (1 : ℚ) < 255 ∧ normalizeColorChannel (some 255) = min ((255 : ℚ) / 255) 1
    ∧ (-3 : ℚ) < 0 ∧ normalizeColorChannel (some (-3)) = 0
    ∧ (0 : ℚ) ≤ 1 / 2 ∧ (1 / 2 : ℚ) ≤ 1 ∧ normalizeColorChannel (some (1 / 2)) = 1 / 2
    ∧ parseColorValue (some (.arr [.num 255, .num 0, .num 0])) = some (1, 0, 0) :=
  ⟨by norm_num, (c6_color_array_normalization.2.1 255 (by norm_num)).1,
   by norm_num, c6_color_array_normalization.2.2.1 (-3) (by norm_num),
   by norm_num, by norm_num,
   c6_color_array_normalization.2.2.2.2.1 (1 / 2) (by norm_num) (by norm_num),
   c6_color_array_normalization.2.2.2.2.2⟩

/-- A sign split on a list not starting with a sign character is trivial. -/
theorem jsSignSplit_of_ne (c : Char) (cs : List Char) (h1 : c ≠ '-') (h2 : c ≠ '+') :
    jsSignSplit (c :: cs) = (1, c :: cs) := by
  unfold jsSignSplit
  split <;> simp_all

/-- Stripping the `0x` prefix does nothing when the first character is not
`0`. -/
theorem jsStripHexPrefix_of_ne (c : Char) (cs : List Char) (h : c ≠ '0') :
    jsStripHexPrefix (c :: cs) = c :: cs := by
  unfold jsStripHexPrefix
  split <;> simp_all

/-- A doubled non-hex-digit character never parses under `parseInt(·, 16)`:
whitespace is skipped, a lone sign has no digits after it, and anything else
fails the digit test immediately. -/
theorem jsParseIntHex_pair_nonhex (c : Char) (hc : isHexDigit c = false) :
    jsParseIntHex [c, c] = none := by
  by_cases hw : c.isWhitespace
  · simp [jsParseIntHex, List.dropWhile, hw, jsSignSplit, jsStripHexPrefix]
  · have h0 : c ≠ '0' := by rintro rfl; simp [isHexDigit] at hc
    have hdrop : List.dropWhile Char.isWhitespace [c, c] = [c, c] := by
      simp [List.dropWhile, hw]
    by_cases hminus : c = '-'
    · subst hminus
      simp [jsParseIntHex, hdrop, jsSignSplit, jsStripHexPrefix, List.takeWhile, hc]
    · by_cases hplus : c = '+'
      · subst hplus
        simp [jsParseIntHex, hdrop, jsSignSplit, jsStripHexPrefix, List.takeWhile, hc]
      · simp [jsParseIntHex, hdrop, jsSignSplit_of_ne c [c] hminus hplus,
          jsStripHexPrefix_of_ne c [c] h0, List.takeWhile, hc]

/-- C7 (amended): a digit count other than 3, 6 or 8 is absent; in the 6- and
8-digit forms the parse is absent exactly when one of the first three
2-character channel substrings is NaN under `parseInt(·, 16)` (prefix
parsing: a leading hex digit followed by a non-hex character still parses);
alpha digits are ignored; the 3-digit form duplicates each nibble, and a
non-hex character there is absent. -/
theorem c7_hex_color_parsing :
    (∀ s : List Char, (s.drop 1).length ≠ 3 → (s.drop 1).length ≠ 6 → (s.drop 1).length ≠ 8 →
      parseHexColor s = none)
    ∧ (∀ s : List Char, (s.drop 1).length = 6 ∨ (s.drop 1).length = 8 →
      (parseHexColor s = none ↔
        jsParseIntHex ((s.drop 1).take 2) = none ∨
        jsParseIntHex (((s.drop 1).drop 2).take 2) = none ∨
        jsParseIntHex (((s.drop 1).drop 4).take 2) = none))
    ∧ (∀ (h6 a2 : List Char), h6.length = 6 → a2.length = 2 →
      parseHexColor ('#' :: (h6 ++ a2)) = parseHexColor ('#' :: h6))
    ∧ (∀ c1 c2 c3 : Char,
      parseHexColor ['#', c1, c2, c3] = parseHexColor ['#', c1, c1, c2, c2, c3, c3])
    ∧ (∀ c1 c2 c3 : Char, isHexDigit c1 = false → parseHexColor ['#', c1, c2, c3] = none) := by
  refine ⟨?_, ?_, ?_, ?_, ?_⟩
  · intro s h3 h6 h8
    have hcond : ¬(s.drop 1).length = 3 ∧ ¬((s.drop 1).length = 6 ∨ (s.drop 1).length = 8) :=
      ⟨h3, by rintro (h | h) <;> simp_all⟩
    simp only [parseHexColor]
    rw [if_pos hcond]
  · intro s h
    have h3 : ¬(s.drop 1).length = 3 := by omega
    simp only [parseHexColor]
    rw [if_neg (by tauto)]
    simp only [if_neg h3]
    norm_num
    cases h0 : jsParseIntHex (s.tail.take 2) <;>
      cases h1 : jsParseIntHex ((s.drop 3).take 2) <;>
        cases h2 : jsParseIntHex ((s.drop 5).take 2) <;>
          simp [h0, h1, h2]
  · intro h6 a2 hh ha
    have hch0 : (h6 ++ a2).take 2 = h6.take 2 :=
      List.take_append_of_le_length (by omega)
    have hch : ∀ k : ℕ, k + 2 ≤ 6 → ((h6 ++ a2).drop k).take 2 = (h6.drop k).take 2 := by
      intro k hk
      rw [List.drop_append_of_le_length (by omega), List.take_append_of_le_length (by
        simp only [List.length_drop, hh]; omega)]
    have l8 : (h6 ++ a2).length = 8 := by simp [hh, ha]
    simp only [parseHexColor, List.drop_one, List.tail_cons, l8, hh]
    norm_num
    rw [hch0, hch 2 (by omega), hch 4 (by omega)]
  · intro c1 c2 c3
    simp [parseHexColor]
  · intro c1 c2 c3 hc
    have := jsParseIntHex_pair_nonhex c1 hc
    simp [parseHexColor, this]

/-- C7 counterexample: `"#1g0000"` contains the non-hex digit `g` inside the
first channel yet resolves to a color (the channel parses as the hex prefix
`1`), contradicting the claim that any non-hex digit in the first three
channels yields absent. -/
theorem c7_hex_color_counterexample :
    parseColorValue (some (.str "#1g0000")) = some (1, 0, 0) ∧
      parseColorValue (some (.str "#1g0000")) ≠ none := by
  constructor
  · with_unfolding_all rfl
  · intro h
    rw [show parseColorValue (some (.str "#1g0000")) = some (1, 0, 0) from by
      with_unfolding_all rfl] at h
    exact Option.noConfusion h

/-- Witness for C7 at concrete inputs: a 5-digit string is absent, the
8-digit white with a garbage alpha still parses, the short form `#fff`
matches its duplicated long form, and `#g00` is absent. -/
theorem c7_hex_color_parsing_witness :
    parseHexColor "#12345".data = none
    ∧ parseHexColor ('#' :: ("ffffff".data ++ "zz".data)) = parseHexColor ('#' :: "ffffff".data)
    ∧ parseHexColor "#fff".data = parseHexColor "#ffffff".data
    ∧ parseHexColor "#g00".data = none :=
  ⟨c7_hex_color_parsing.1 "#12345".data (by decide) (by decide) (by decide),
   c7_hex_color_parsing.2.2.1 "ffffff".data "zz".data (by decide) (by decide),
   c7_hex_color_parsing.2.2.2.1 'f' 'f' 'f',
   c7_hex_color_parsing.2.2.2.2 'g' '0' '0' (by decide)⟩

/-- The fan loop indices `1, …, n − 2` are the shifted indices
`0, …, n − 3`. -/
theorem fanIndices_eq_map (n : ℕ) : fanIndices n = (List.range (n - 2)).map (· + 1) := by
  unfold fanIndices
  rw [List.range'_eq_map_range]
  exact List.map_congr_left fun x _ => Nat.add_comm 1 x

/-- Reindexing of a fan-loop `flatMap` to start at 0. -/
theorem flatMap_fanIndices {α : Type} (n : ℕ) (f : ℕ → List α) :
    (fanIndices n).flatMap f = (List.range (n - 2)).flatMap fun k => f (k + 1) := by
  rw [fanIndices_eq_map, List.flatMap_map]

/-- C5 (amended): a vertex whose color field is a truthy 3+-element array
gets the `Number`-coercion of its first three entries, non-finite coercions
replaced channel-wise by the shape default — with no 8-bit normalization or
clamping — and a vertex whose color field is missing, falsy, a non-array, or
a short array gets the shape default; the color stream emits exactly these
values in fan order. -/
theorem c5_vertex_color_resolution :
    (∀ (v : JsVal) (d : ColorTuple), jsColorField v = none → extractVertexColor v d = d)
    ∧ (∀ (v c : JsVal) (d : ColorTuple), jsColorField v = some c → jsTruthy c = false →
        extractVertexColor v d = d)
    ∧ (∀ (v : JsVal) (xs : List JsVal) (d : ColorTuple), jsColorField v = some (.arr xs) →
        3 ≤ xs.length →
        extractVertexColor v d =
          ((jsToNumber (xs.getD 0 .null)).getD d.1, (jsToNumber (xs.getD 1 .null)).getD d.2.1,
            (jsToNumber (xs.getD 2 .null)).getD d.2.2))
    ∧ (∀ (v c : JsVal) (d : ColorTuple), jsColorField v = some c → jsTruthy c = true →
        (∀ xs, c ≠ .arr xs) → extractVertexColor v d = d)
    ∧ (∀ (v : JsVal) (xs : List JsVal) (d : ColorTuple), jsColorField v = some (.arr xs) →
        xs.length < 3 → extractVertexColor v d = d)
    ∧ (∀ (csg : CsgLike) (vs : List JsVal), 3 ≤ vs.length →
        polyColors csg (some vs) =
          (List.range (vs.length - 2)).flatMap fun k =>
            let colors := vs.map fun v => extractVertexColor v (csgDefaultColor csg)
            vecToList (colors.getD 0 (0, 0, 0)) ++ vecToList (colors.getD (k + 1) (0, 0, 0)) ++
              vecToList (colors.getD (k + 2) (0, 0, 0))) := by
  refine ⟨?_, ?_, ?_, ?_, ?_, ?_⟩
  · intro v d h
    simp [extractVertexColor, h]
  · intro v c d h ht
    simp [extractVertexColor, h, ht]
  · intro v xs d h hlen
    simp [extractVertexColor, h, jsTruthy, toColorTuple, hlen]
  · intro v c d h ht hne
    cases c with
    | arr xs => exact absurd rfl (hne xs)
    | _ => simp [extractVertexColor, h, ht, toColorTuple]
  · intro v xs d h hlen
    have : ¬3 ≤ xs.length := by omega
    simp [extractVertexColor, h, jsTruthy, toColorTuple, this]
  · intro csg vs hlen
    have h3 : ¬vs.length < 3 := by omega
    simp only [polyColors, h3, if_neg, if_false]
    rw [flatMap_fanIndices]

/-- C5 counterexample: a vertex color `[255, 0, 0]` is emitted verbatim as
`(255, 0, 0)` while the Color Resolver maps the same array to `(1, 0, 0)` —
the per-vertex path uses the raw coercion, not the resolver. -/
theorem c5_vertex_color_counterexample :
    (convertPolygonGeometry
        { polygons := some [some
            [ .obj none none (some (.arr [.num 255, .num 0, .num 0])),
              .arr [.num 1, .num 0, .num 0],
              .arr [.num 0, .num 1, .num 0] ]] }
        "m").map (fun g => g.colors)
      = .ok (some [255, 0, 0, 1, 1, 1, 1, 1, 1])
    ∧ parseColorValue (some (.arr [.num 255, .num 0, .num 0])) = some (1, 0, 0)
    ∧ (255 : ℚ) ≠ 1 := by
  refine ⟨by with_unfolding_all rfl, by with_unfolding_all rfl, by norm_num⟩

/-- Witness for C5 at concrete inputs: a colorless vertex falls back to the
default, a `[255, NaN, 0]` color keeps 255 and patches the NaN channel from
the default, and a truthy non-array color falls back. -/
theorem c5_vertex_color_resolution_witness :
    jsColorField (.arr [.num 1]) = none
    ∧ extractVertexColor (.arr [.num 1]) (1, 1, 1) = (1, 1, 1)
    ∧ jsColorField (.obj none none (some (.arr [.num 255, .nan, .num 0]))) =
        some (.arr [.num 255, .nan, .num 0])
    ∧ 3 ≤ ([JsVal.num 255, .nan, .num 0] : List JsVal).length
    ∧ extractVertexColor (.obj none none (some (.arr [.num 255, .nan, .num 0])))
        (7, 8, 9) = (255, 8, 0)
    ∧ jsTruthy (.str "red") = true
    ∧ extractVertexColor (.obj none none (some (.str "red"))) (7, 8, 9) = (7, 8, 9) := by
  refine ⟨rfl, c5_vertex_color_resolution.1 (.arr [.num 1]) (1, 1, 1) rfl, rfl, by decide,
    ?_, rfl, c5_vertex_color_resolution.2.2.2.1 (.obj none none (some (.str "red")))
      (.str "red") (7, 8, 9) rfl rfl (fun xs h => JsVal.noConfusion h)⟩
  rw [c5_vertex_color_resolution.2.2.1 (.obj none none (some (.arr [.num 255, .nan, .num 0])))
    [.num 255, .nan, .num 0] (7, 8, 9) rfl (by decide)]
  rfl

/-- Sum of a constant map. -/
theorem list_sum_map_const {α : Type} (l : List α) (c : ℕ) :
    (l.map fun _ => c).sum = c * l.length := by
  rw [show (fun _ : α => c) = Function.const α c from rfl, List.map_const, List.sum_replicate,
    smul_eq_mul, Nat.mul_comm]

/-- The fan loop runs `n − 2` times. -/
theorem fanIndices_length (n : ℕ) : (fanIndices n).length = n - 2 := by
  simp [fanIndices]

/-- One polygon contributes `9·(N − 2)` position floats: nine per fan
triangle, none when `N < 3`. -/
theorem polyPositions_length (csg : CsgLike) (vs : List JsVal) :
    (polyPositions csg (some vs)).length = 9 * (vs.length - 2) := by
  by_cases h : vs.length < 3
  · have h2 : vs.length - 2 = 0 := by omega
    simp [polyPositions, h, h2]
  · simp only [polyPositions, if_neg h]
    rw [List.length_flatMap]
    trans (List.map (fun _ => 9) (fanIndices (transformedVertices csg vs).length)).sum
    · exact congrArg List.sum (List.map_congr_left fun i _ => by
        simp [Function.comp, vecToList])
    · rw [list_sum_map_const, fanIndices_length]
      simp [transformedVertices]

/-- One polygon contributes as many color floats as position floats. -/
theorem polyColors_length (csg : CsgLike) (vs : List JsVal) :
    (polyColors csg (some vs)).length = 9 * (vs.length - 2) := by
  by_cases h : vs.length < 3
  · have h2 : vs.length - 2 = 0 := by omega
    simp [polyColors, h, h2]
  · simp only [polyColors, if_neg h]
    rw [List.length_flatMap]
    trans (List.map (fun _ => 9) (fanIndices vs.length)).sum
    · exact congrArg List.sum (List.map_congr_left fun i _ => by
        simp [Function.comp, vecToList])
    · rw [list_sum_map_const, fanIndices_length]

/-- One polygon contributes as many normal floats as position floats. -/
theorem polyNormals_length (csg : CsgLike) (vs : List JsVal) :
    (polyNormals csg (some vs)).length = 9 * (vs.length - 2) := by
  by_cases h : vs.length < 3
  · have h2 : vs.length - 2 = 0 := by omega
    simp [polyNormals, h, h2]
  · simp only [polyNormals, if_neg h]
    rw [List.length_flatMap]
    trans (List.map (fun _ => 9) (fanIndices (transformedVertices csg vs).length)).sum
    · exact congrArg List.sum (List.map_congr_left fun i _ => by
        simp [Function.comp, vecToListR])
    · rw [list_sum_map_const, fanIndices_length]
      simp [transformedVertices]

/-- The fan characterization of one polygon's position stream: for `N ≥ 3`
vertices, the triangles are `(0, k+1, k+2)` for `k = 0, …, N−3`, nine floats
each in the order first vertex, vertex `k+1`, vertex `k+2`. -/
theorem polyPositions_eq_fan (csg : CsgLike) (vs : List JsVal) (h : 3 ≤ vs.length) :
    polyPositions csg (some vs) =
      (List.range (vs.length - 2)).flatMap fun k =>
        let tvs := transformedVertices csg vs
        vecToList (tvs.getD 0 (0, 0, 0)) ++ vecToList (tvs.getD (k + 1) (0, 0, 0)) ++
          vecToList (tvs.getD (k + 2) (0, 0, 0)) := by
  have h3 : ¬vs.length < 3 := by omega
  simp only [polyPositions, if_neg h3]
  have hlen : (transformedVertices csg vs).length = vs.length := by simp [transformedVertices]
  rw [hlen, flatMap_fanIndices]

/-- C3: fan triangulation — a polygon with `N ≥ 3` vertices emits the
`N − 2` fan triangles `(0, 1, 2), …, (0, N−2, N−1)` as nine position floats
per triangle, a polygon with fewer than 3 vertices (or none at all)
contributes nothing to any stream, and a 6-quad solid yields exactly one
Mesh Unit of `12·9 = 36·3` position floats. -/
theorem c3_fan_triangulation :
    (∀ (csg : CsgLike) (vs : List JsVal), 3 ≤ vs.length →
      polyPositions csg (some vs) =
        ((List.range (vs.length - 2)).flatMap fun k =>
          let tvs := transformedVertices csg vs
          vecToList (tvs.getD 0 (0, 0, 0)) ++ vecToList (tvs.getD (k + 1) (0, 0, 0)) ++
            vecToList (tvs.getD (k + 2) (0, 0, 0)))
      ∧ (polyPositions csg (some vs)).length = 9 * (vs.length - 2))
    ∧ (∀ (csg : CsgLike) (p : Option (List JsVal)),
        (p = none ∨ ∃ vs, p = some vs ∧ vs.length < 3) →
        polyPositions csg p = [] ∧ polyColors csg p = [] ∧ polyNormals csg p = [])
    ∧ (∀ (csg : CsgLike) (name : String) (ps : List (Option (List JsVal))),
        csg.polygons = some ps → ps.length = 6 →
        (∀ p ∈ ps, ∃ vs, p = some vs ∧ vs.length = 4) →
        (collectGeometries (.leaf (some csg)) name).map (fun us => us.map fun g =>
          g.positions.length) = .ok [12 * 9] ∧ 12 * 9 = 36 * 3) := by
  refine ⟨?_, ?_, ?_⟩
  · intro csg vs h
    exact ⟨polyPositions_eq_fan csg vs h, polyPositions_length csg vs⟩
  · rintro csg p (rfl | ⟨vs, rfl, hvs⟩)
    · exact ⟨rfl, rfl, rfl⟩
    · exact ⟨by simp [polyPositions, hvs], by simp [polyColors, hvs], by simp [polyNormals, hvs]⟩
  · intro csg name ps hpoly h6 hquads
    have hflat : (ps.flatMap (polyPositions csg)).length = 108 := by
      rw [List.length_flatMap]
      trans (List.map (fun _ => 18) ps).sum
      · refine congrArg List.sum (List.map_congr_left fun p hp => ?_)
        obtain ⟨vs, rfl, h4⟩ := hquads p hp
        simp [Function.comp, polyPositions_length, h4]
      · rw [list_sum_map_const, h6]
    have hne : ¬(ps.flatMap (polyPositions csg)).length = 0 := by omega
    have hps0 : ¬ps.length = 0 := by omega
    refine ⟨?_, by norm_num⟩
    simp only [collectGeometries, hpoly, convertPolygonGeometry, if_neg hps0, if_neg hne,
      Except.map]
    simp [hflat]

/-- Witness for C3 at a concrete cube: six quad faces over the unit cube's
corners produce a single Mesh Unit with 108 position floats, and a single
pentagon produces the three fan triangles `(0,1,2), (0,2,3), (0,3,4)`. -/
theorem c3_fan_triangulation_witness :
    (3 ≤ ([.arr [.num 0, .num 0, .num 0], .arr [.num 2, .num 0, .num 0],
        .arr [.num 2, .num 2, .num 0], .arr [.num 1, .num 3, .num 0],
        .arr [.num 0, .num 2, .num 0]] : List JsVal).length)
    ∧ polyPositions {} (some [.arr [.num 0, .num 0, .num 0], .arr [.num 2, .num 0, .num 0],
        .arr [.num 2, .num 2, .num 0], .arr [.num 1, .num 3, .num 0],
        .arr [.num 0, .num 2, .num 0]]) =
      ((List.range 3).flatMap fun k =>
        let tvs := transformedVertices {} [.arr [.num 0, .num 0, .num 0],
          .arr [.num 2, .num 0, .num 0], .arr [.num 2, .num 2, .num 0],
          .arr [.num 1, .num 3, .num 0], .arr [.num 0, .num 2, .num 0]]
        vecToList (tvs.getD 0 (0, 0, 0)) ++ vecToList (tvs.getD (k + 1) (0, 0, 0)) ++
          vecToList (tvs.getD (k + 2) (0, 0, 0)))
    ∧ (collectGeometries (.leaf (some { polygons := some (List.replicate 6 (some
        [.arr [.num 0, .num 0, .num 0], .arr [.num 1, .num 0, .num 0],
         .arr [.num 1, .num 1, .num 0], .arr [.num 0, .num 1, .num 0]])) })) "cube").map
        (fun us => us.map fun g => g.positions.length) = .ok [12 * 9] := by
  refine ⟨by decide, ?_, ?_⟩
  · exact (c3_fan_triangulation.1 {} _ (by decide)).1
  · exact ((c3_fan_triangulation.2.2 _ "cube" _ rfl (by decide)
      (by decide)).1)

/-- Shorthand for the Euclidean length `Math.hypot` computes over the three
rational components. -/
noncomputable def hypotR (v : Vec3) : ℝ :=
  Real.sqrt ((v.1 : ℝ) ^ 2 + (v.2.1 : ℝ) ^ 2 + (v.2.2 : ℝ) ^ 2)

/-- C4: each fan triangle's normal stream block is the normalization of
`cross(B − A, C − A)` over the transformed vertices, repeated identically for
the triangle's three vertices (so no averaging can occur across triangles or
polygons); a zero-length cross product falls back to exactly `[0, 0, 1]`, a
nonzero one is divided componentwise by its positive Euclidean length, and
the length is zero exactly on the zero vector. -/
theorem c4_flat_normals :
    (∀ (csg : CsgLike) (vs : List JsVal), 3 ≤ vs.length →
      polyNormals csg (some vs) =
        (List.range (vs.length - 2)).flatMap fun k =>
          let tvs := transformedVertices csg vs
          let normal := normalize (cross
            (subtract (tvs.getD (k + 1) (0, 0, 0)) (tvs.getD 0 (0, 0, 0)))
            (subtract (tvs.getD (k + 2) (0, 0, 0)) (tvs.getD 0 (0, 0, 0))))
          vecToListR normal ++ vecToListR normal ++ vecToListR normal)
    ∧ (∀ v : Vec3, hypotR v = 0 → normalize v = (0, 0, 1))
    ∧ (∀ v : Vec3, hypotR v ≠ 0 →
        0 < hypotR v ∧
        normalize v = ((v.1 : ℝ) / hypotR v, (v.2.1 : ℝ) / hypotR v, (v.2.2 : ℝ) / hypotR v))
    ∧ (∀ v : Vec3, hypotR v = 0 ↔ v = (0, 0, 0)) := by
  have hsum_nonneg : ∀ v : Vec3, (0 : ℝ) ≤ (v.1 : ℝ) ^ 2 + (v.2.1 : ℝ) ^ 2 + (v.2.2 : ℝ) ^ 2 :=
    fun v => by positivity
  refine ⟨?_, ?_, ?_, ?_⟩
  · intro csg vs h
    have h3 : ¬vs.length < 3 := by omega
    simp only [polyNormals, if_neg h3]
    have hlen : (transformedVertices csg vs).length = vs.length := by simp [transformedVertices]
    rw [hlen, flatMap_fanIndices]
  · intro v h
    simp only [normalize, hypotR] at h ⊢
    rw [if_pos h]
  · intro v h
    refine ⟨lt_of_le_of_ne (Real.sqrt_nonneg _) (Ne.symm h), ?_⟩
    simp only [normalize, hypotR] at h ⊢
    rw [if_neg h]
  · intro v
    constructor
    · intro h
      have hle : (v.1 : ℝ) ^ 2 + (v.2.1 : ℝ) ^ 2 + (v.2.2 : ℝ) ^ 2 ≤ 0 :=
        Real.sqrt_eq_zero'.mp h
      have hz : (v.1 : ℝ) ^ 2 + (v.2.1 : ℝ) ^ 2 + (v.2.2 : ℝ) ^ 2 = 0 :=
        le_antisymm hle (hsum_nonneg v)
      have h1 : (v.1 : ℝ) = 0 := by
        nlinarith [sq_nonneg (v.1 : ℝ), sq_nonneg (v.2.1 : ℝ), sq_nonneg (v.2.2 : ℝ)]
      have h2 : (v.2.1 : ℝ) = 0 := by
        nlinarith [sq_nonneg (v.1 : ℝ), sq_nonneg (v.2.1 : ℝ), sq_nonneg (v.2.2 : ℝ)]
      have h3 : (v.2.2 : ℝ) = 0 := by
        nlinarith [sq_nonneg (v.1 : ℝ), sq_nonneg (v.2.1 : ℝ), sq_nonneg (v.2.2 : ℝ)]
      have e1 : v.1 = 0 := by exact_mod_cast h1
      have e2 : v.2.1 = 0 := by exact_mod_cast h2
      have e3 : v.2.2 = 0 := by exact_mod_cast h3
      exact Prod.ext e1 (Prod.ext e2 e3)
    · rintro rfl
      simp [hypotR]

/-- Witness for C4 at concrete inputs: a degenerate (repeated-vertex)
triangle has a zero-length cross product and normal `[0, 0, 1]`, while the
triangle `(0,0,0), (2,0,0), (0,2,0)` has cross product `(0, 0, 4)` of
positive length, and a concrete pentagon's normal stream is its fan form. -/
theorem c4_flat_normals_witness :
    hypotR (cross (subtract (0, 0, 0) (0, 0, 0)) (subtract (1, 1, 0) (0, 0, 0))) = 0
    ∧ normalize (cross (subtract (0, 0, 0) (0, 0, 0)) (subtract (1, 1, 0) (0, 0, 0))) = (0, 0, 1)
    ∧ hypotR (cross (subtract (2, 0, 0) (0, 0, 0)) (subtract (0, 2, 0) (0, 0, 0))) ≠ 0
    ∧ normalize (cross (subtract (2, 0, 0) (0, 0, 0)) (subtract (0, 2, 0) (0, 0, 0))) =
        (((cross (subtract (2, 0, 0) (0, 0, 0)) (subtract (0, 2, 0) (0, 0, 0))).1 : ℝ) /
            hypotR (cross (subtract (2, 0, 0) (0, 0, 0)) (subtract (0, 2, 0) (0, 0, 0))),
          ((cross (subtract (2, 0, 0) (0, 0, 0)) (subtract (0, 2, 0) (0, 0, 0))).2.1 : ℝ) /
            hypotR (cross (subtract (2, 0, 0) (0, 0, 0)) (subtract (0, 2, 0) (0, 0, 0))),
          ((cross (subtract (2, 0, 0) (0, 0, 0)) (subtract (0, 2, 0) (0, 0, 0))).2.2 : ℝ) /
            hypotR (cross (subtract (2, 0, 0) (0, 0, 0)) (subtract (0, 2, 0) (0, 0, 0))))
    ∧ (3 ≤ ([.arr [.num 0, .num 0, .num 0], .arr [.num 1, .num 0, .num 0],
        .arr [.num 1, .num 1, .num 0], .arr [.num 0, .num 1, .num 0]] : List JsVal).length)
    ∧ polyNormals {} (some [.arr [.num 0, .num 0, .num 0], .arr [.num 1, .num 0, .num 0],
        .arr [.num 1, .num 1, .num 0], .arr [.num 0, .num 1, .num 0]]) =
      ((List.range 2).flatMap fun k =>
        let tvs := transformedVertices {} [.arr [.num 0, .num 0, .num 0],
          .arr [.num 1, .num 0, .num 0], .arr [.num 1, .num 1, .num 0],
          .arr [.num 0, .num 1, .num 0]]
        let normal := normalize (cross
          (subtract (tvs.getD (k + 1) (0, 0, 0)) (tvs.getD 0 (0, 0, 0)))
          (subtract (tvs.getD (k + 2) (0, 0, 0)) (tvs.getD 0 (0, 0, 0))))
        vecToListR normal ++ vecToListR normal ++ vecToListR normal) := by
  have hz : hypotR (cross (subtract (0, 0, 0) (0, 0, 0)) (subtract (1, 1, 0) (0, 0, 0))) = 0 := by
    rw [show cross (subtract ((0 : ℚ), (0 : ℚ), (0 : ℚ)) (0, 0, 0)) (subtract (1, 1, 0) (0, 0, 0))
      = ((0 : ℚ), (0 : ℚ), (0 : ℚ)) from by with_unfolding_all rfl]
    exact (c4_flat_normals.2.2.2 (0, 0, 0)).mpr rfl
  have hnz : hypotR (cross (subtract ((2 : ℚ), (0 : ℚ), (0 : ℚ)) (0, 0, 0))
      (subtract (0, 2, 0) (0, 0, 0))) ≠ 0 := by
    rw [show cross (subtract ((2 : ℚ), (0 : ℚ), (0 : ℚ)) (0, 0, 0)) (subtract (0, 2, 0) (0, 0, 0))
      = ((0 : ℚ), (0 : ℚ), (4 : ℚ)) from by with_unfolding_all rfl]
    intro h
    have := (c4_flat_normals.2.2.2 (0, 0, 4)).mp h
    simp at this
  exact ⟨hz, c4_flat_normals.2.1 _ hz, hnz, (c4_flat_normals.2.2.1 _ hnz).2,
    by decide, c4_flat_normals.1 {} _ (by decide)⟩

mutual
/-- A tree contains a naked geometry value: a `null` leaf or one carrying
neither a polygon list nor a side list. -/
def hasNakedNode : CsgNode → Prop
  | .leaf none => True
  | .leaf (some c) => c.polygons = none ∧ c.sides = none
  | .group cs => hasNakedList cs

/-- Some element of the array contains a naked geometry value. -/
def hasNakedList : CsgNodeList → Prop
  | .nil => False
  | .cons c cs => hasNakedNode c ∨ hasNakedList cs
end

mutual
/-- A tree containing a naked geometry value never collects successfully. -/
theorem collect_naked_not_ok :
    ∀ (t : CsgNode), hasNakedNode t → ∀ (name : String) (us : List GeometryData),
      collectGeometries t name ≠ .ok us
  | .leaf none, _, name, us => by simp [collectGeometries]
  | .leaf (some c), h, name, us => by
    obtain ⟨hp, hs⟩ := h
    simp [collectGeometries, hp, hs]
  | .group cs, h, name, us => by
    have := collectList_naked_not_ok cs h name 0 us
    simpa [collectGeometries] using this

/-- An array containing a naked geometry value never collects successfully. -/
theorem collectList_naked_not_ok :
    ∀ (cs : CsgNodeList), hasNakedList cs → ∀ (name : String) (i : ℕ)
      (us : List GeometryData), collectGeometriesList cs name i ≠ .ok us
  | .cons c cs, h, name, i, us => by
    rcases h with h | h
    · cases hr : collectGeometries c (name ++ "_" ++ toString i) with
      | error e => simp [collectGeometriesList, hr]
      | ok gs => exact absurd hr (collect_naked_not_ok c h _ _)
    · cases hr : collectGeometries c (name ++ "_" ++ toString i) with
      | error e => simp [collectGeometriesList, hr]
      | ok gs =>
        cases hrest : collectGeometriesList cs name (i + 1) with
        | error e => simp [collectGeometriesList, hr, hrest]
        | ok rest => exact absurd hrest (collectList_naked_not_ok cs h _ _ _)
end

/-- C9: a geometry value with neither polygons nor sides (or a `null` value)
raises the unsupported-geometry failure and never successfully yields a unit
list — anywhere inside a list input either — while a present polygon list
(even empty) takes the polygon path and a present side list the side path;
the unsupported-geometry condition is a distinct constructor with a distinct
message from the empty-triangulation and no-geometry failures. -/
theorem c9_unsupported_geometry :
    (∀ name : String, collectGeometries (.leaf none) name = .error .unsupportedGeometry)
    ∧ (∀ (c : CsgLike) (name : String), c.polygons = none → c.sides = none →
        collectGeometries (.leaf (some c)) name = .error .unsupportedGeometry)
    ∧ (∀ (t : CsgNode) (name : String), hasNakedNode t →
        ∀ us : List GeometryData, collectGeometries t name ≠ .ok us)
    ∧ (∀ (c : CsgLike) (name : String) (ps : List (Option (List JsVal))),
        c.polygons = some ps →
        collectGeometries (.leaf (some c)) name = (convertPolygonGeometry c name).map fun g => [g])
    ∧ (∀ (c : CsgLike) (name : String) (ss : List JsVal), c.polygons = none →
        c.sides = some ss →
        collectGeometries (.leaf (some c)) name = (convertSideGeometry c name).map fun g => [g])
    ∧ ConvErr.unsupportedGeometry ≠ ConvErr.expectedPolygonData
    ∧ ConvErr.unsupportedGeometry ≠ ConvErr.emptyTriangleMesh
    ∧ ConvErr.unsupportedGeometry ≠ ConvErr.expectedSideData
    ∧ ConvErr.unsupportedGeometry ≠ ConvErr.emptyLineGeometry
    ∧ ConvErr.unsupportedGeometry ≠ ConvErr.noGeometry
    ∧ ConvErr.unsupportedGeometry.message ≠ ConvErr.emptyTriangleMesh.message
    ∧ ConvErr.unsupportedGeometry.message ≠ ConvErr.emptyLineGeometry.message
    ∧ ConvErr.unsupportedGeometry.message ≠ ConvErr.noGeometry.message := by
  refine ⟨fun name => rfl, ?_, fun t name h us => collect_naked_not_ok t h name us, ?_, ?_,
    by decide, by decide, by decide, by decide, by decide, by decide, by decide, by decide⟩
  · intro c name hp hs
    simp [collectGeometries, hp, hs]
  · intro c name ps hp
    simp [collectGeometries, hp]
  · intro c name ss hp hs
    simp [collectGeometries, hp, hs]

/-- Witness for C9 at concrete inputs: the empty object is naked and errors
(alone and inside a list), an empty polygon list takes the polygon path and
hits the polygon-data failure (not the unsupported one), and a side-bearing
object takes the side path. -/
theorem c9_unsupported_geometry_witness :
    collectGeometries (.leaf (some {})) "m" = .error .unsupportedGeometry
    ∧ collectGeometries (.group (.cons (.leaf (some {})) .nil)) "m" ≠ .ok []
    ∧ collectGeometries (.leaf (some { polygons := some [] })) "m" =
        (convertPolygonGeometry { polygons := some [] } "m").map (fun g => [g])
    ∧ convertPolygonGeometry { polygons := some ([] : List (Option (List JsVal))) } "m" =
        .error .expectedPolygonData
    ∧ collectGeometries (.leaf (some { sides := some [.arr [.arr [.num 0, .num 0],
        .arr [.num 1, .num 1]]] })) "m" =
        (convertSideGeometry { sides := some [.arr [.arr [.num 0, .num 0],
          .arr [.num 1, .num 1]]] } "m").map (fun g => [g]) :=
  ⟨c9_unsupported_geometry.2.1 {} "m" rfl rfl,
   c9_unsupported_geometry.2.2.1 (.group (.cons (.leaf (some {})) .nil)) "m"
     (Or.inl ⟨rfl, rfl⟩) [],
   c9_unsupported_geometry.2.2.2.1 { polygons := some [] } "m" [] rfl,
   by with_unfolding_all rfl,
   c9_unsupported_geometry.2.2.2.2.1 _ "m" _ rfl rfl⟩

/-- The stream invariant of one emitted Mesh Unit: a color stream is always
present with exactly as many floats as the position stream; triangle-mode
units always carry an equally long normal stream, line-mode units never
carry one. -/
def meshUnitInvariant (g : GeometryData) : Prop :=
  (∃ cs, g.colors = some cs ∧ cs.length = g.positions.length)
  ∧ (g.mode = GLTF_MODE_TRIANGLES → ∃ ns, g.normals = some ns ∧ ns.length = g.positions.length)
  ∧ (g.mode = GLTF_MODE_LINES → g.normals = none)

/-- The flattened polygon color stream has the length of the flattened
position stream. -/
theorem polyColors_flat_length (csg : CsgLike) (ps : List (Option (List JsVal))) :
    (ps.flatMap (polyColors csg)).length = (ps.flatMap (polyPositions csg)).length := by
  rw [List.length_flatMap, List.length_flatMap]
  refine congrArg List.sum (List.map_congr_left fun p _ => ?_)
  cases p with
  | none => rfl
  | some vs => simp [Function.comp, polyColors_length, polyPositions_length]

/-- The flattened polygon normal stream has the length of the flattened
position stream. -/
theorem polyNormals_flat_length (csg : CsgLike) (ps : List (Option (List JsVal))) :
    (ps.flatMap (polyNormals csg)).length = (ps.flatMap (polyPositions csg)).length := by
  rw [List.length_flatMap, List.length_flatMap]
  refine congrArg List.sum (List.map_congr_left fun p _ => ?_)
  cases p with
  | none => rfl
  | some vs => simp [Function.comp, polyNormals_length, polyPositions_length]

/-- One side contributes as many color floats as position floats. -/
theorem sideColors_length (csg : CsgLike) (side : JsVal) :
    (sideColors csg side).length = (sidePositions csg side).length := by
  cases side with
  | arr pts =>
    by_cases h : pts.length < 2 <;> simp [sideColors, sidePositions, h, vecToList]
  | _ => rfl

/-- The flattened side color stream has the length of the flattened position
stream. -/
theorem sideColors_flat_length (csg : CsgLike) (ss : List JsVal) :
    (ss.flatMap (sideColors csg)).length = (ss.flatMap (sidePositions csg)).length := by
  rw [List.length_flatMap, List.length_flatMap]
  exact congrArg List.sum (List.map_congr_left fun s _ => by
    simp [Function.comp, sideColors_length])

/-- Every unit `convertPolygonGeometry` returns satisfies the stream
invariant (and is triangle-mode). -/
theorem convertPolygonGeometry_invariant (csg : CsgLike) (name : String) (g : GeometryData)
    (h : convertPolygonGeometry csg name = .ok g) :
    meshUnitInvariant g ∧ g.mode = GLTF_MODE_TRIANGLES := by
  revert h
  cases hpoly : csg.polygons with
  | none => simp [convertPolygonGeometry, hpoly]
  | some ps =>
    simp only [convertPolygonGeometry, hpoly]
    by_cases h0 : ps.length = 0
    · simp [h0]
    · rw [if_neg h0]
      by_cases hpos : (ps.flatMap (polyPositions csg)).length = 0
      · simp [hpos]
      · rw [if_neg hpos]
        intro h
        have hg := (Except.ok.injEq _ _).mp h.symm
        have hcol : ¬(ps.flatMap (polyColors csg)).length = 0 := by
          rw [polyColors_flat_length]; exact hpos
        subst hg
        refine ⟨⟨⟨ps.flatMap (polyColors csg), ?_, ?_⟩,
          fun _ => ⟨ps.flatMap (polyNormals csg), rfl, ?_⟩,
          fun hmode => by simp [GLTF_MODE_TRIANGLES, GLTF_MODE_LINES] at hmode⟩, rfl⟩
        · rw [if_neg hcol]
        · simpa using polyColors_flat_length csg ps
        · simpa using polyNormals_flat_length csg ps

/-- Every unit `convertSideGeometry` returns satisfies the stream invariant
(and is line-mode). -/
theorem convertSideGeometry_invariant (csg : CsgLike) (name : String) (g : GeometryData)
    (h : convertSideGeometry csg name = .ok g) :
    meshUnitInvariant g ∧ g.mode = GLTF_MODE_LINES := by
  revert h
  cases hsides : csg.sides with
  | none => simp [convertSideGeometry, hsides]
  | some ss =>
    simp only [convertSideGeometry, hsides]
    by_cases h0 : ss.length = 0
    · simp [h0]
    · rw [if_neg h0]
      by_cases hpos : (ss.flatMap (sidePositions csg)).length = 0
      · simp [hpos]
      · rw [if_neg hpos]
        intro h
        have hg := (Except.ok.injEq _ _).mp h.symm
        have hcol : ¬(ss.flatMap (sideColors csg)).length = 0 := by
          rw [sideColors_flat_length]; exact hpos
        subst hg
        refine ⟨⟨⟨ss.flatMap (sideColors csg), ?_, ?_⟩,
          fun hmode => by simp [GLTF_MODE_TRIANGLES, GLTF_MODE_LINES] at hmode,
          fun _ => rfl⟩, rfl⟩
        · rw [if_neg hcol]
        · simpa using sideColors_flat_length csg ss

mutual
/-- Every unit a successful collection emits satisfies the stream
invariant. -/
theorem collect_units_invariant :
    ∀ (t : CsgNode) (name : String) (us : List GeometryData),
      collectGeometries t name = .ok us → ∀ g ∈ us, meshUnitInvariant g
  | .leaf none, name, us => by simp [collectGeometries]
  | .leaf (some c), name, us => by
    cases hpoly : c.polygons with
    | some ps =>
      simp only [collectGeometries, hpoly]
      cases hconv : convertPolygonGeometry c name with
      | error e => simp [Except.map, hconv]
      | ok g =>
        intro h g2 hg2
        simp only [Except.map, hconv, Except.ok.injEq] at h
        rw [← h] at hg2
        rcases List.mem_singleton.mp hg2 with rfl
        exact (convertPolygonGeometry_invariant c name g2 hconv).1
    | none =>
      cases hsides : c.sides with
      | some ss =>
        simp only [collectGeometries, hpoly, hsides]
        cases hconv : convertSideGeometry c name with
        | error e => simp [Except.map, hconv]
        | ok g =>
          intro h g2 hg2
          simp only [Except.map, hconv, Except.ok.injEq] at h
          rw [← h] at hg2
          rcases List.mem_singleton.mp hg2 with rfl
          exact (convertSideGeometry_invariant c name g2 hconv).1
      | none => simp [collectGeometries, hpoly, hsides]
  | .group cs, name, us => by
    intro h
    exact collectList_units_invariant cs name 0 us (by simpa [collectGeometries] using h)

/-- Every unit a successful collection of an array emits satisfies the
stream invariant. -/
theorem collectList_units_invariant :
    ∀ (cs : CsgNodeList) (name : String) (i : ℕ) (us : List GeometryData),
      collectGeometriesList cs name i = .ok us → ∀ g ∈ us, meshUnitInvariant g
  | .nil, name, i, us => by
    intro h g hg
    simp only [collectGeometriesList, Except.ok.injEq] at h
    rw [← h] at hg
    simp at hg
  | .cons c cs, name, i, us => by
    cases hr : collectGeometries c (name ++ "_" ++ toString i) with
    | error e => simp [collectGeometriesList, hr]
    | ok gs =>
      cases hrest : collectGeometriesList cs name (i + 1) with
      | error e => simp [collectGeometriesList, hr, hrest]
      | ok rest =>
        intro h g hg
        simp only [collectGeometriesList, hr, hrest, Except.ok.injEq] at h
        rw [← h] at hg
        rcases List.mem_append.mp hg with hmem | hmem
        · exact collect_units_invariant c _ gs hr g hmem
        · exact collectList_units_invariant cs name (i + 1) rest hrest g hmem
end

/-- C10: every Mesh Unit the triangulator emits carries a present color
stream with exactly as many floats as the position stream; triangle-mode
units always carry a normal stream of the same length, and line-mode units
never carry normals. -/
theorem c10_mesh_unit_streams :
    ∀ (t : CsgNode) (name : String) (us : List GeometryData),
      collectGeometries t name = .ok us → ∀ g ∈ us,
        (∃ cs, g.colors = some cs ∧ cs.length = g.positions.length)
        ∧ (g.mode = GLTF_MODE_TRIANGLES →
            ∃ ns, g.normals = some ns ∧ ns.length = g.positions.length)
        ∧ (g.mode = GLTF_MODE_LINES → g.normals = none) :=
  collect_units_invariant

/-- The concrete line-mode Mesh Unit produced by one two-point side, used in
the C10 witness. -/
def lineUnitExample : GeometryData :=
  { name := "m", positions := [0, 0, 0, 1, 1, 0], normals := none,
    colors := some [1, 1, 1, 1, 1, 1], mode := GLTF_MODE_LINES }

/-- Witness for C10 at a concrete line-mode collection. -/
theorem c10_mesh_unit_streams_witness :
    collectGeometries (.leaf (some { sides := some [.arr [.arr [.num 0, .num 0],
        .arr [.num 1, .num 1]]] })) "m" = .ok [lineUnitExample]
    ∧ lineUnitExample ∈ [lineUnitExample]
    ∧ ((∃ cs, lineUnitExample.colors = some cs ∧ cs.length = lineUnitExample.positions.length)
        ∧ (lineUnitExample.mode = GLTF_MODE_TRIANGLES →
            ∃ ns, lineUnitExample.normals = some ns ∧
              ns.length = lineUnitExample.positions.length)
        ∧ (lineUnitExample.mode = GLTF_MODE_LINES → lineUnitExample.normals = none)) := by
  have hc : collectGeometries (.leaf (some { sides := some [.arr [.arr [.num 0, .num 0],
      .arr [.num 1, .num 1]]] })) "m" = .ok [lineUnitExample] := by
    with_unfolding_all rfl
  exact ⟨hc, List.mem_singleton.mpr rfl,
    c10_mesh_unit_streams _ "m" _ hc _ (List.mem_singleton.mpr rfl)⟩

/-- Alignment rounds up to a multiple of 4. -/
theorem align_mod_self (v : ℕ) : align v 4 % 4 = 0 := by
  unfold align
  by_cases h : v % 4 = 0 <;> simp [h] <;> omega

/-- Alignment never shrinks. -/
theorem le_align (v : ℕ) : v ≤ align v 4 := by
  unfold align
  by_cases h : v % 4 = 0 <;> simp [h] <;> omega

/-- Alignment is the identity on multiples of 4. -/
theorem align_of_mod_eq_zero (v : ℕ) (h : v % 4 = 0) : align v 4 = v := by
  simp [align, h]

/-- A zero-filled list reads zero at every index. -/
theorem getD_replicate_zero (n i : ℕ) : (List.replicate n (0 : ℕ)).getD i 0 = 0 := by
  induction n generalizing i with
  | zero => simp
  | succ m ih =>
    cases i with
    | zero => simp [List.replicate]
    | succ j => simpa [List.replicate] using ih j

/-- The packing invariant carried through `buildGltfCore`'s loop: the chunks
flatten to exactly the running byte length, every recorded view offset is
4-byte aligned, and every byte outside all recorded views is zero. -/
def bufInv (flat : List ℕ) (views : List BufferView) (len : ℕ) : Prop :=
  flat.length = len
  ∧ (∀ v ∈ views, v.byteOffset % 4 = 0)
  ∧ (∀ i, i < len → (∀ v ∈ views, i < v.byteOffset ∨ v.byteOffset + v.byteLength ≤ i) →
      flat.getD i 0 = 0)

/-- The bytes `addBufferView` appends: the zero gap padding, then the data. -/
theorem addBufferView_flatten (chunks : List (List ℕ)) (views : List BufferView)
    (data : List ℕ) (cur : ℕ) (target : Option ℕ) :
    (addBufferView chunks views data cur target).chunks.flatten =
      chunks.flatten ++ (List.replicate (align cur 4 - cur) 0 ++ data) := by
  unfold addBufferView
  by_cases h : 0 < align cur 4 - cur
  · simp [h, List.flatten_append]
  · have h0 : align cur 4 - cur = 0 := by omega
    simp [h, h0, List.flatten_append]

/-- The view list `addBufferView` appends to. -/
theorem addBufferView_views (chunks : List (List ℕ)) (views : List BufferView)
    (data : List ℕ) (cur : ℕ) (target : Option ℕ) :
    (addBufferView chunks views data cur target).bufferViews =
      views ++ [⟨0, align cur 4, data.length, target⟩] := rfl

/-- The new running length `addBufferView` returns. -/
theorem addBufferView_newLength (chunks : List (List ℕ)) (views : List BufferView)
    (data : List ℕ) (cur : ℕ) (target : Option ℕ) :
    (addBufferView chunks views data cur target).newLength = align cur 4 + data.length := rfl

/-- `addBufferView` preserves the packing invariant. -/
theorem addBufferView_inv (chunks : List (List ℕ)) (views : List BufferView)
    (data : List ℕ) (cur : ℕ) (target : Option ℕ)
    (h : bufInv chunks.flatten views cur) :
    bufInv (addBufferView chunks views data cur target).chunks.flatten
      (addBufferView chunks views data cur target).bufferViews
      (addBufferView chunks views data cur target).newLength := by
  obtain ⟨hlen, hoff, hgap⟩ := h
  rw [addBufferView_flatten, addBufferView_views, addBufferView_newLength]
  have halign := le_align cur
  refine ⟨?_, ?_, ?_⟩
  · simp [hlen]
    omega
  · intro v hv
    rcases List.mem_append.mp hv with hv | hv
    · exact hoff v hv
    · rcases List.mem_singleton.mp hv with rfl
      exact align_mod_self cur
  · intro i hi hunc
    have hnew := hunc ⟨0, align cur 4, data.length, target⟩
      (List.mem_append.mpr (Or.inr (List.mem_singleton.mpr rfl)))
    have hialign : i < align cur 4 := by
      rcases hnew with h | h
      · exact h
      · simp at h
        omega
    by_cases hic : i < cur
    · rw [List.getD_append _ _ _ _ (by rw [hlen]; exact hic)]
      exact hgap i hic fun v hv => hunc v (List.mem_append.mpr (Or.inl hv))
    · push_neg at hic
      rw [List.getD_append_right _ _ _ _ (by rw [hlen]; exact hic), hlen]
      have hlt : i - cur < align cur 4 - cur := by omega
      rw [List.getD_append _ _ _ _ (by simpa using hlt)]
      exact getD_replicate_zero _ _

/-- `packGeometry` preserves the packing invariant through its one to three
`addBufferView` calls. -/
theorem packGeometry_inv (f32 : ℚ → List ℕ) (n32 : ℝ → List ℕ) (st : PackState)
    (g : GeometryData) (index : ℕ)
    (h : bufInv st.bufferChunks.flatten st.bufferViews st.bufferLength) :
    bufInv (packGeometry f32 n32 st g index).bufferChunks.flatten
      (packGeometry f32 n32 st g index).bufferViews
      (packGeometry f32 n32 st g index).bufferLength := by
  cases hn : g.normals with
  | none =>
    cases hc : g.colors with
    | none =>
      simp only [packGeometry, hn, hc]
      exact addBufferView_inv _ _ _ _ _ h
    | some cs =>
      simp only [packGeometry, hn, hc]
      exact addBufferView_inv _ _ _ _ _ (addBufferView_inv _ _ _ _ _ h)
  | some ns =>
    cases hc : g.colors with
    | none =>
      simp only [packGeometry, hn, hc]
      exact addBufferView_inv _ _ _ _ _ (addBufferView_inv _ _ _ _ _ h)
    | some cs =>
      simp only [packGeometry, hn, hc]
      exact addBufferView_inv _ _ _ _ _ (addBufferView_inv _ _ _ _ _
        (addBufferView_inv _ _ _ _ _ h))

/-- The indexed packing loop preserves the packing invariant. -/
theorem packAll_inv (f32 : ℚ → List ℕ) (n32 : ℝ → List ℕ) :
    ∀ (gs : List GeometryData) (i : ℕ) (st : PackState),
      bufInv st.bufferChunks.flatten st.bufferViews st.bufferLength →
      bufInv (packAll f32 n32 gs i st).bufferChunks.flatten
        (packAll f32 n32 gs i st).bufferViews (packAll f32 n32 gs i st).bufferLength
  | [], _, _, h => h
  | g :: gs, i, st, h =>
    packAll_inv f32 n32 gs (i + 1) (packGeometry f32 n32 st g i)
      (packGeometry_inv f32 n32 st g i h)

/-- `Buffer.concat` with an explicit total length always yields that
length. -/
theorem bufferConcat_length (chunks : List (List ℕ)) (total : ℕ) :
    (bufferConcat chunks total).length = total := by
  simp [bufferConcat, List.length_take]
  omega

/-- `Buffer.concat` is the flattening when the total matches the chunks. -/
theorem bufferConcat_eq_flatten (chunks : List (List ℕ)) (total : ℕ)
    (h : chunks.flatten.length = total) :
    bufferConcat chunks total = chunks.flatten := by
  simp [bufferConcat, ← h]

/-- The packed buffer's byte length is always a multiple of 4. -/
theorem buildGltfCore_binLength (f32 : ℚ → List ℕ) (n32 : ℝ → List ℕ)
    (gs : List GeometryData) :
    (buildGltfCore f32 n32 gs).2.length % 4 = 0 := by
  simp only [buildGltfCore]
  rw [bufferConcat_length]
  exact align_mod_self _

/-- The packed buffer is the loop's chunk bytes followed by the final
alignment padding. -/
theorem buildGltfCore_binary_eq (f32 : ℚ → List ℕ) (n32 : ℝ → List ℕ)
    (gs : List GeometryData)
    (hlen : (packAll f32 n32 gs 0
      { bufferChunks := [], bufferViews := [], accessors := [], meshes := [], nodes := [],
        bufferLength := 0 }).bufferChunks.flatten.length =
      (packAll f32 n32 gs 0
      { bufferChunks := [], bufferViews := [], accessors := [], meshes := [], nodes := [],
        bufferLength := 0 }).bufferLength) :
    (buildGltfCore f32 n32 gs).2 =
      (packAll f32 n32 gs 0
        { bufferChunks := [], bufferViews := [], accessors := [], meshes := [], nodes := [],
          bufferLength := 0 }).bufferChunks.flatten ++
      List.replicate ((align (packAll f32 n32 gs 0
        { bufferChunks := [], bufferViews := [], accessors := [], meshes := [], nodes := [],
          bufferLength := 0 }).bufferLength 4) - (packAll f32 n32 gs 0
        { bufferChunks := [], bufferViews := [], accessors := [], meshes := [], nodes := [],
          bufferLength := 0 }).bufferLength) 0 := by
  set st := packAll f32 n32 gs 0
    { bufferChunks := [], bufferViews := [], accessors := [], meshes := [], nodes := [],
      bufferLength := 0 } with hst
  show bufferConcat
    (if st.bufferLength < align st.bufferLength 4 then
      st.bufferChunks ++ [List.replicate (align st.bufferLength 4 - st.bufferLength) 0]
    else st.bufferChunks) (align st.bufferLength 4) = _
  have halign := le_align st.bufferLength
  by_cases hp : st.bufferLength < align st.bufferLength 4
  · rw [if_pos hp, bufferConcat_eq_flatten _ _ (by
      simp [List.flatten_append, hlen]
      omega)]
    simp [List.flatten_append]
  · have heq : align st.bufferLength 4 = st.bufferLength := by omega
    rw [if_neg hp, bufferConcat_eq_flatten _ _ (by rw [hlen, heq]), heq]
    simp

/-- C2: every bufferView the packer records has a 4-byte-aligned offset, the
single buffer descriptor declares exactly the packed buffer's length, that
length is a multiple of 4, and every byte of the packed buffer not covered
by any bufferView (the alignment gaps) is zero. -/
theorem c2_buffer_alignment :
    ∀ (f32 : ℚ → List ℕ) (n32 : ℝ → List ℕ) (gs : List GeometryData), gs ≠ [] →
      (∀ v ∈ (buildGltfCore f32 n32 gs).1.bufferViews, v.byteOffset % 4 = 0)
      ∧ (buildGltfCore f32 n32 gs).1.buffers =
          [{ byteLength := (buildGltfCore f32 n32 gs).2.length }]
      ∧ (buildGltfCore f32 n32 gs).2.length % 4 = 0
      ∧ (∀ i, i < (buildGltfCore f32 n32 gs).2.length →
          (∀ v ∈ (buildGltfCore f32 n32 gs).1.bufferViews,
            i < v.byteOffset ∨ v.byteOffset + v.byteLength ≤ i) →
          (buildGltfCore f32 n32 gs).2.getD i 0 = 0) := by
  intro f32 n32 gs _
  have hst := packAll_inv f32 n32 gs 0
    { bufferChunks := [], bufferViews := [], accessors := [], meshes := [], nodes := [],
      bufferLength := 0 }
    ⟨rfl, by simp, by intro i hi _; simp at hi⟩
  set st := packAll f32 n32 gs 0
    { bufferChunks := [], bufferViews := [], accessors := [], meshes := [], nodes := [],
      bufferLength := 0 } with hstdef
  obtain ⟨hlen, hoff, hgap⟩ := hst
  have hblen : (buildGltfCore f32 n32 gs).2.length = align st.bufferLength 4 :=
    bufferConcat_length _ _
  have hbin := buildGltfCore_binary_eq f32 n32 gs hlen
  have halign := le_align st.bufferLength
  refine ⟨fun v hv => hoff v hv, ?_, buildGltfCore_binLength f32 n32 gs, ?_⟩
  · rw [hblen]
    rfl
  · intro i hi hunc
    rw [hblen] at hi
    have huncexp : ∀ v ∈ st.bufferViews, i < v.byteOffset ∨ v.byteOffset + v.byteLength ≤ i :=
      hunc
    rw [hbin]
    by_cases hic : i < st.bufferLength
    · rw [List.getD_append _ _ _ _ (by rw [hlen]; exact hic)]
      exact hgap i hic huncexp
    · push_neg at hic
      rw [List.getD_append_right _ _ _ _ (by rw [hlen]; exact hic)]
      exact getD_replicate_zero _ _

/-- A concrete 4-bytes-per-element float encoder used as a position/color
encoder in witnesses; the theorems hold for an arbitrary such encoder, the
real IEEE-754 one included. -/
def f32Stub : ℚ → List ℕ := fun _ => [0, 0, 0, 0]

/-- A concrete 4-bytes-per-element encoder for the real-valued normal
stream, used in witnesses. -/
def n32Stub : ℝ → List ℕ := fun _ => [0, 0, 0, 0]

/-- A concrete one-vertex triangle-mode unit used in witnesses. -/
def packExampleUnit : GeometryData :=
  { name := "m", positions := [1, 2, 3], normals := none, colors := none, mode := 4 }

/-- Witness for C2 on one concrete geometry with the stub encoders. -/
theorem c2_buffer_alignment_witness :
    ([packExampleUnit] ≠ [])
    ∧ ((∀ v ∈ (buildGltfCore f32Stub n32Stub [packExampleUnit]).1.bufferViews,
          v.byteOffset % 4 = 0)
      ∧ (buildGltfCore f32Stub n32Stub [packExampleUnit]).1.buffers =
          [{ byteLength := (buildGltfCore f32Stub n32Stub [packExampleUnit]).2.length }]
      ∧ (buildGltfCore f32Stub n32Stub [packExampleUnit]).2.length % 4 = 0
      ∧ (∀ i, i < (buildGltfCore f32Stub n32Stub [packExampleUnit]).2.length →
          (∀ v ∈ (buildGltfCore f32Stub n32Stub [packExampleUnit]).1.bufferViews,
            i < v.byteOffset ∨ v.byteOffset + v.byteLength ≤ i) →
          (buildGltfCore f32Stub n32Stub [packExampleUnit]).2.getD i 0 = 0)) :=
  ⟨List.cons_ne_nil _ _,
   c2_buffer_alignment f32Stub n32Stub [packExampleUnit] (List.cons_ne_nil _ _)⟩

/-- Reading past an appended prefix. -/
theorem getD_skip (l rest : List ℕ) (k : ℕ) :
    (l ++ rest).getD (l.length + k) 0 = rest.getD k 0 := by
  rw [List.getD_append_right _ _ _ _ (by omega)]
  congr 1
  omega

/-- A 32-bit field read past an appended prefix. -/
theorem readU32LE_skip (l rest : List ℕ) (k : ℕ) :
    readU32LE (l ++ rest) (l.length + k) = readU32LE rest k := by
  have e : ∀ j : ℕ, (l ++ rest).getD (l.length + k + j) 0 = rest.getD (k + j) 0 := by
    intro j
    rw [show l.length + k + j = l.length + (k + j) from by omega]
    exact getD_skip l rest (k + j)
  simp only [readU32LE]
  rw [show l.length + k + 1 = l.length + k + 1 from rfl]
  have e0 := e 0
  have e1 := e 1
  have e2 := e 2
  have e3 := e 3
  simp only [Nat.add_zero] at e0
  rw [e0, e1, e2, e3]

/-- A 32-bit field read through a `drop`. -/
theorem readU32LE_drop (l : List ℕ) (n k : ℕ) :
    readU32LE (l.drop n) k = readU32LE l (n + k) := by
  simp only [readU32LE, List.getD_eq_getElem?_getD, List.getElem?_drop]
  rw [show n + (k + 1) = n + k + 1 from by omega, show n + (k + 2) = n + k + 2 from by omega,
    show n + (k + 3) = n + k + 3 from by omega]

/-- Zero-or-more padding written as an unconditional append. -/
theorem pad_if_eq (bs : List ℕ) (p b : ℕ) :
    (if 0 < p then bs ++ List.replicate p b else bs) = bs ++ List.replicate p b := by
  by_cases h : 0 < p
  · rw [if_pos h]
  · have h0 : p = 0 := by omega
    simp [h0]

/-- Stripping trailing spaces undoes space padding, provided the original
bytes do not themselves end in a space. -/
theorem stripTrailingSpaces_pad (bs : List ℕ) (p : ℕ) (h : bs.getLast? ≠ some 32) :
    stripTrailingSpaces (bs ++ List.replicate p 32) = bs := by
  unfold stripTrailingSpaces
  rw [List.reverse_append, List.reverse_replicate, List.dropWhile_append]
  have hrep : (List.replicate p 32).dropWhile (fun b => b = 32) = [] := by
    rw [List.dropWhile_eq_nil_iff]
    intro x hx
    simp [List.eq_of_mem_replicate hx]
  rw [hrep]
  simp only [List.isEmpty_nil, if_true]
  cases hrev : bs.reverse with
  | nil =>
    have : bs = [] := by simpa using congrArg List.reverse hrev
    simp [this]
  | cons x t =>
    have hx : bs.getLast? = some x := by rw [← List.head?_reverse, hrev]; rfl
    have hxne : ¬(x = 32) := fun hc => h (by rw [hx, hc])
    rw [List.dropWhile_cons_of_neg (by simpa using hxne)]
    rw [← hrev, List.reverse_reverse]

/-- The length of the assembled container layout. -/
theorem glbLayout_len (pj pb : List ℕ) :
    (u32le 0x46546c67 ++ (u32le 2 ++
      (u32le (12 + 8 + pj.length + 8 + pb.length) ++ (u32le pj.length ++
        (u32le 0x4e4f534a ++ (pj ++ (u32le pb.length ++ (u32le 0x004e4942 ++ pb)))))))).length =
      12 + 8 + pj.length + 8 + pb.length := by
  simp [u32le]
  omega

/-- The total-length field at offset 8 reads back as the container's length. -/
theorem glbLayout_read8 (pj pb : List ℕ)
    (hT : 12 + 8 + pj.length + 8 + pb.length < 2 ^ 32) :
    readU32LE (u32le 0x46546c67 ++ (u32le 2 ++
      (u32le (12 + 8 + pj.length + 8 + pb.length) ++ (u32le pj.length ++
        (u32le 0x4e4f534a ++ (pj ++ (u32le pb.length ++ (u32le 0x004e4942 ++ pb)))))))) 8 =
      (u32le 0x46546c67 ++ (u32le 2 ++
        (u32le (12 + 8 + pj.length + 8 + pb.length) ++ (u32le pj.length ++
          (u32le 0x4e4f534a ++ (pj ++ (u32le pb.length ++
            (u32le 0x004e4942 ++ pb)))))))).length := by
  have h8 : readU32LE (u32le 0x46546c67 ++ (u32le 2 ++
      (u32le (12 + 8 + pj.length + 8 + pb.length) ++ (u32le pj.length ++
        (u32le 0x4e4f534a ++ (pj ++ (u32le pb.length ++ (u32le 0x004e4942 ++ pb)))))))) 8 =
      (12 + 8 + pj.length + 8 + pb.length) % 256 +
        256 * ((12 + 8 + pj.length + 8 + pb.length) / 256 % 256) +
        65536 * ((12 + 8 + pj.length + 8 + pb.length) / 65536 % 256) +
        16777216 * ((12 + 8 + pj.length + 8 + pb.length) / 16777216 % 256) := rfl
  rw [h8, glbLayout_len pj pb]
  omega

/-- The JSON-chunk length field at offset 12 reads back as the padded JSON
length. -/
theorem glbLayout_read12 (pj pb : List ℕ)
    (hT : 12 + 8 + pj.length + 8 + pb.length < 2 ^ 32) :
    readU32LE (u32le 0x46546c67 ++ (u32le 2 ++
      (u32le (12 + 8 + pj.length + 8 + pb.length) ++ (u32le pj.length ++
        (u32le 0x4e4f534a ++ (pj ++ (u32le pb.length ++ (u32le 0x004e4942 ++ pb)))))))) 12 =
      pj.length := by
  have h12 : readU32LE (u32le 0x46546c67 ++ (u32le 2 ++
      (u32le (12 + 8 + pj.length + 8 + pb.length) ++ (u32le pj.length ++
        (u32le 0x4e4f534a ++ (pj ++ (u32le pb.length ++ (u32le 0x004e4942 ++ pb)))))))) 12 =
      pj.length % 256 + 256 * (pj.length / 256 % 256) + 65536 * (pj.length / 65536 % 256) +
        16777216 * (pj.length / 16777216 % 256) := rfl
  rw [h12]
  omega

/-- Dropping the 12-byte header and the 8-byte JSON chunk header exposes the
padded JSON followed by the BIN chunk. -/
theorem glbLayout_drop20 (pj pb : List ℕ) :
    (u32le 0x46546c67 ++ (u32le 2 ++
      (u32le (12 + 8 + pj.length + 8 + pb.length) ++ (u32le pj.length ++
        (u32le 0x4e4f534a ++ (pj ++ (u32le pb.length ++ (u32le 0x004e4942 ++ pb)))))))).drop 20 =
      pj ++ (u32le pb.length ++ (u32le 0x004e4942 ++ pb)) := rfl

/-- Dropping everything before the binary payload exposes exactly the padded
binary. -/
theorem glbLayout_dropBin (pj pb : List ℕ) :
    (u32le 0x46546c67 ++ (u32le 2 ++
      (u32le (12 + 8 + pj.length + 8 + pb.length) ++ (u32le pj.length ++
        (u32le 0x4e4f534a ++ (pj ++ (u32le pb.length ++
          (u32le 0x004e4942 ++ pb)))))))).drop (20 + pj.length + 8) = pb := by
  have h1 : (u32le 0x46546c67 ++ (u32le 2 ++
      (u32le (12 + 8 + pj.length + 8 + pb.length) ++ (u32le pj.length ++
        (u32le 0x4e4f534a ++ (pj ++ (u32le pb.length ++
          (u32le 0x004e4942 ++ pb)))))))).drop (20 + pj.length + 8) =
      ((u32le 0x46546c67 ++ (u32le 2 ++
        (u32le (12 + 8 + pj.length + 8 + pb.length) ++ (u32le pj.length ++
          (u32le 0x4e4f534a ++ (pj ++ (u32le pb.length ++
            (u32le 0x004e4942 ++ pb)))))))).drop 20).drop (pj.length + 8) := by
    rw [List.drop_drop]
    exact congrArg (fun k => List.drop k (u32le 0x46546c67 ++ (u32le 2 ++
      (u32le (12 + 8 + pj.length + 8 + pb.length) ++ (u32le pj.length ++
        (u32le 0x4e4f534a ++ (pj ++ (u32le pb.length ++
          (u32le 0x004e4942 ++ pb))))))))) (by omega)
  rw [h1, glbLayout_drop20 pj pb]
  have h2 : (pj ++ (u32le pb.length ++ (u32le 0x004e4942 ++ pb))).drop (pj.length + 8) =
      (u32le pb.length ++ (u32le 0x004e4942 ++ pb)).drop 8 := List.drop_append 8
  rw [h2]
  rfl

/-- The BIN-chunk length field reads back as the padded binary length. -/
theorem glbLayout_readBinLen (pj pb : List ℕ)
    (hT : 12 + 8 + pj.length + 8 + pb.length < 2 ^ 32) :
    readU32LE (u32le 0x46546c67 ++ (u32le 2 ++
      (u32le (12 + 8 + pj.length + 8 + pb.length) ++ (u32le pj.length ++
        (u32le 0x4e4f534a ++ (pj ++ (u32le pb.length ++
          (u32le 0x004e4942 ++ pb)))))))) (20 + pj.length) = pb.length := by
  have hdrop20 : (u32le 0x46546c67 ++ (u32le 2 ++
      (u32le (12 + 8 + pj.length + 8 + pb.length) ++ (u32le pj.length ++
        (u32le 0x4e4f534a ++ (pj ++ (u32le pb.length ++
          (u32le 0x004e4942 ++ pb)))))))).drop 20 =
      pj ++ (u32le pb.length ++ (u32le 0x004e4942 ++ pb)) := rfl
  rw [← readU32LE_drop _ 20 pj.length, hdrop20]
  have hskip : readU32LE (pj ++ (u32le pb.length ++ (u32le 0x004e4942 ++ pb)))
      pj.length = readU32LE (u32le pb.length ++ (u32le 0x004e4942 ++ pb)) 0 :=
    readU32LE_skip pj _ 0
  rw [hskip]
  have hv : readU32LE (u32le pb.length ++ (u32le 0x004e4942 ++ pb)) 0 =
      pb.length % 256 + 256 * (pb.length / 256 % 256) + 65536 * (pb.length / 65536 % 256) +
        16777216 * (pb.length / 16777216 % 256) := rfl
  rw [hv]
  omega

/-- The byte layout of a container assembled from a padded JSON chunk `pj`
and a padded binary chunk `pb`: the total-length field reads back as the
container's exact length, the JSON chunk parses back as `pj`, and the BIN
chunk parses back as `pb`. -/
theorem glb_layout_core (pj pb glb : List ℕ)
    (hglb : glb = u32le 0x46546c67 ++ (u32le 2 ++
      (u32le (12 + 8 + pj.length + 8 + pb.length) ++ (u32le pj.length ++
        (u32le 0x4e4f534a ++ (pj ++ (u32le pb.length ++ (u32le 0x004e4942 ++ pb))))))))
    (hT : 12 + 8 + pj.length + 8 + pb.length < 2 ^ 32) :
    readU32LE glb 8 = glb.length
    ∧ glbJsonChunk glb = pj
    ∧ glbBinChunk glb = pb
    ∧ glb.length = 12 + 8 + pj.length + 8 + pb.length := by
  subst hglb
  refine ⟨glbLayout_read8 pj pb hT, ?_, ?_, glbLayout_len pj pb⟩
  · unfold glbJsonChunk
    rw [glbLayout_read12 pj pb hT, glbLayout_drop20 pj pb]
    exact List.take_left pj _
  · unfold glbBinChunk
    dsimp only
    rw [glbLayout_read12 pj pb hT, glbLayout_dropBin pj pb, glbLayout_readBinLen pj pb hT]
    exact List.take_length pb

/-- The container `buildGlb` assembles, in the layout form of
`glb_layout_core`: with the binary already 4-byte aligned, the BIN chunk is
the binary itself, and the JSON chunk is the space-padded JSON bytes. -/
theorem buildGlb_eq (jsonBytes binary : List ℕ) (hb : binary.length % 4 = 0) :
    buildGlb jsonBytes binary =
      u32le 0x46546c67 ++ (u32le 2 ++
        (u32le (12 + 8 +
          (jsonBytes ++ List.replicate (align jsonBytes.length 4 - jsonBytes.length) 32).length +
          8 + binary.length) ++
        ((u32le (jsonBytes ++
          List.replicate (align jsonBytes.length 4 - jsonBytes.length) 32).length) ++
        (u32le 0x4e4f534a ++
        ((jsonBytes ++ List.replicate (align jsonBytes.length 4 - jsonBytes.length) 32) ++
        (u32le binary.length ++ (u32le 0x004e4942 ++ binary))))))) := by
  have hpb : (if 0 < align binary.length 4 - binary.length then
      binary ++ List.replicate (align binary.length 4 - binary.length) 0 else binary) =
      binary := by
    rw [align_of_mod_eq_zero _ hb]
    simp
  simp only [buildGlb]
  rw [hpb, pad_if_eq]
  simp [List.append_assoc]

/-- C1: for every non-empty Mesh Unit list, serializing the packed result to
the binary container and parsing it back recovers the JSON bytes exactly
(after stripping the trailing padding spaces) and the packed byte buffer
byte-for-byte, and the 32-bit total-length field at header offset 8 is the
exact byte length of the whole container, which is the 12-byte header, the
8-byte JSON chunk header, the padded JSON, the 8-byte BIN chunk header and
the (already aligned) binary. -/
theorem c1_glb_roundtrip :
    ∀ (f32 : ℚ → List ℕ) (n32 : ℝ → List ℕ) (gs : List GeometryData) (jsonBytes : List ℕ),
      gs ≠ [] →
      jsonBytes.getLast? ≠ some 32 →
      12 + 8 + align jsonBytes.length 4 + 8 + (buildGltfCore f32 n32 gs).2.length < 2 ^ 32 →
      stripTrailingSpaces (glbJsonChunk (buildGlb jsonBytes (buildGltfCore f32 n32 gs).2)) =
          jsonBytes
      ∧ glbBinChunk (buildGlb jsonBytes (buildGltfCore f32 n32 gs).2) =
          (buildGltfCore f32 n32 gs).2
      ∧ readU32LE (buildGlb jsonBytes (buildGltfCore f32 n32 gs).2) 8 =
          (buildGlb jsonBytes (buildGltfCore f32 n32 gs).2).length
      ∧ (buildGlb jsonBytes (buildGltfCore f32 n32 gs).2).length =
          12 + 8 + align jsonBytes.length 4 + 8 + (buildGltfCore f32 n32 gs).2.length := by
  intro f32 n32 gs jsonBytes _ hlast hsize
  have hb := buildGltfCore_binLength f32 n32 gs
  have hpjlen : (jsonBytes ++
      List.replicate (align jsonBytes.length 4 - jsonBytes.length) 32).length =
      align jsonBytes.length 4 := by
    simp
    have := le_align jsonBytes.length
    omega
  have hcore := glb_layout_core
    (jsonBytes ++ List.replicate (align jsonBytes.length 4 - jsonBytes.length) 32)
    (buildGltfCore f32 n32 gs).2
    (buildGlb jsonBytes (buildGltfCore f32 n32 gs).2)
    (buildGlb_eq jsonBytes (buildGltfCore f32 n32 gs).2 hb)
    (by rw [hpjlen]; omega)
  obtain ⟨h8, hj, hbChunk, hlen⟩ := hcore
  refine ⟨?_, hbChunk, h8, ?_⟩
  · rw [hj]
    exact stripTrailingSpaces_pad jsonBytes _ hlast
  · rw [hlen, hpjlen]

/-- Witness for C1 on one concrete geometry and the two-byte JSON text
`{}`. -/
theorem c1_glb_roundtrip_witness :
    ([packExampleUnit] ≠ [])
    ∧ ([123, 125] : List ℕ).getLast? ≠ some 32
    ∧ 12 + 8 + align ([123, 125] : List ℕ).length 4 + 8 +
        (buildGltfCore f32Stub n32Stub [packExampleUnit]).2.length < 2 ^ 32
    ∧ (stripTrailingSpaces (glbJsonChunk (buildGlb [123, 125]
          (buildGltfCore f32Stub n32Stub [packExampleUnit]).2)) = [123, 125]
      ∧ glbBinChunk (buildGlb [123, 125] (buildGltfCore f32Stub n32Stub [packExampleUnit]).2) =
          (buildGltfCore f32Stub n32Stub [packExampleUnit]).2
      ∧ readU32LE (buildGlb [123, 125] (buildGltfCore f32Stub n32Stub [packExampleUnit]).2) 8 =
          (buildGlb [123, 125] (buildGltfCore f32Stub n32Stub [packExampleUnit]).2).length
      ∧ (buildGlb [123, 125] (buildGltfCore f32Stub n32Stub [packExampleUnit]).2).length =
          12 + 8 + align ([123, 125] : List ℕ).length 4 + 8 +
            (buildGltfCore f32Stub n32Stub [packExampleUnit]).2.length) := by
  have hsize : 12 + 8 + align ([123, 125] : List ℕ).length 4 + 8 +
      (buildGltfCore f32Stub n32Stub [packExampleUnit]).2.length < 2 ^ 32 := by
    have h12 : (buildGltfCore f32Stub n32Stub [packExampleUnit]).2.length = 12 := by
      with_unfolding_all rfl
    rw [h12]
    decide
  exact ⟨List.cons_ne_nil _ _, by decide, hsize,
    c1_glb_roundtrip f32Stub n32Stub [packExampleUnit] [123, 125]
      (List.cons_ne_nil _ _) (by decide) hsize⟩

end JscadToGltf
